import Mathlib

/-!
# temp_from_zip: cache, rate limiter and orchestration

A shallow embedding of `src/temp_from_zip.go`.

* Go `int64` / `int` values are `Int`; every arithmetic operation of the source that can
  overflow is wrapped with `wrapInt64` (two's complement, 64 bits; `int` is taken to be
  64 bits wide, `strconv.IntSize = 64`).
* A Go `string` is a Lean `String`.  The byte loops of `strconv` are run over its characters:
  a character outside ASCII stands for bytes `>= 0x80`, none of which is a sign or a digit,
  so it is rejected at the same position.
* The package-level variables `CACHE`, `API_KEY` and `RATE_LIMITER` are the fields of `State`,
  passed explicitly.  `CACHE_MAX_VALID_SECONDS`, `RATE_LIMIT_MAX_PULLS_MINUTE`,
  `RATE_LIMIT_TRACKING_MAX_SECS` and `PULL_URL` are never assigned and are constants.
* Everything a call of `Latest` reads from outside the process is a field of `Env`:
  the environment variable, one reading of `time.Now().Unix()` per call site, the outcome of
  `http.Get` per URL, and the JSON decoder.
* The effects of a call that are visible outside the process (`time.Sleep`, `http.Get`) are
  recorded in a trace of `Event`s.  `fmt.Printf` logging is not modelled.
* A run-time panic is `none`.
-/

namespace TempFromZip

/-! ## Machine integers -/

/-- Two's-complement wrap-around of a mathematical integer to the `int64` range. -/
def wrapInt64 (x : Int) : Int := (x + 2 ^ 63) % 2 ^ 64 - 2 ^ 63

/-! ## `strconv` (Go standard library) -/

/-- The two error kinds of `strconv.NumError` (`ErrSyntax`, `ErrRange`). -/
inductive NumError
  | ErrSyntax
  | ErrRange
  deriving DecidableEq, Repr

/-- Width of Go's `int` (`strconv.IntSize`). -/
def IntSize : Nat := 64

/-- Largest `uint64`. -/
def maxUint64 : Nat := 2 ^ 64 - 1

/-- The test `'0' <= c && c <= '9'` on a byte of the input. -/
def isDecimalDigit (c : Char) : Bool := decide (48 ≤ c.toNat) && decide (c.toNat ≤ 57)

/-- The digit loop of `strconv.ParseUint(s, 10, bitSize)`; `n` is the `uint64` accumulator.
In base 10 every byte that is not a decimal digit is a syntax error (a letter yields a digit
value `>= base`, an underscore is only allowed for base 0).  The result is Go's pair
`(value, err)`; `err` is `none` for `nil`. -/
def parseUintLoop (maxVal : Nat) : List Char → Nat → Nat × Option NumError
  | [], n => (n, none)
  | c :: cs, n =>
    if isDecimalDigit c then
      let d := c.toNat - 48
      -- cutoff is the smallest number such that cutoff*base > maxUint64
      if n ≥ maxUint64 / 10 + 1 then (maxVal, some .ErrRange)
      else
        let n10 := n * 10 % 2 ^ 64
        let n1 := (n10 + d) % 2 ^ 64
        if n1 < n10 ∨ n1 > maxVal then (maxVal, some .ErrRange)
        else parseUintLoop maxVal cs n1
    else (0, some .ErrSyntax)

/-- The call `strconv.ParseUint(s, 10, bitSize)` on the bytes `s`. -/
def ParseUint (s : List Char) (bitSize : Nat) : Nat × Option NumError :=
  if s = [] then (0, some .ErrSyntax)
  else
    let bitSize := if bitSize = 0 then IntSize else bitSize
    let maxVal := 2 ^ bitSize - 1
    parseUintLoop maxVal s 0

/-- The call `strconv.ParseInt(s, 10, bitSize)`. -/
def ParseInt (s : List Char) (bitSize : Nat) : Int × Option NumError :=
  match s with
  | [] => (0, some .ErrSyntax)
  | c :: cs =>
    -- pick off leading sign
    let neg := decide (c = '-')
    let s1 := if c = '+' then cs else if c = '-' then cs else c :: cs
    -- convert unsigned and check range
    let r := ParseUint s1 bitSize
    let un := r.1
    if r.2 = some .ErrSyntax then (0, some .ErrSyntax)
    else
      let bitSize := if bitSize = 0 then IntSize else bitSize
      let cutoff : Nat := 2 ^ (bitSize - 1)
      if !neg && decide (un ≥ cutoff) then (((cutoff - 1 : Nat) : Int), some .ErrRange)
      else if neg && decide (un > cutoff) then (-(cutoff : Int), some .ErrRange)
      else
        let n := wrapInt64 un
        (if neg then wrapInt64 (-n) else n, none)

/-- The call `strconv.Atoi(s)`: "equivalent to ParseInt(s, 10, 0), converted to type int". -/
def Atoi (s : String) : Int × Option NumError := ParseInt s.data 0

/-- The call `strconv.Itoa(i)`: the decimal rendering of `i`, with a leading `-` when negative. -/
def Itoa (i : Int) : String :=
  if i < 0 then "-" ++ Nat.repr i.natAbs else Nat.repr i.natAbs

/-! ## Data model -/

/-- The result type of `Latest`. -/
structure AreaWeatherData where
  temp : String := ""
  humidity : String := ""
  windSpeed : String := ""
  dataAgeSeconds : String := ""
  error : String := ""
  deriving DecidableEq, Repr

/-- A cached reading; `timestamp` is in epoch seconds. -/
structure CacheEntry where
  temp : String := ""
  humidity : String := ""
  windSpeed : String := ""
  timestamp : Int := 0
  deriving DecidableEq, Repr

/-- A decoded `float32`.  The program only ever formats such a value with
`fmt.Sprintf("%f", x)`, so it is carried as that rendering. -/
structure Float32 where
  sprintf_f : String
  deriving DecidableEq, Repr

structure OWMMain where
  Temp : Float32
  Humidity : Int
  deriving DecidableEq, Repr

structure OWMWind where
  Speed : Float32
  deriving DecidableEq, Repr

structure OWMResponse where
  Main : OWMMain
  Wind : OWMWind
  deriving DecidableEq, Repr

/-- The rate limiter: the list of recorded pull times, oldest first (the mutex is not
modelled: calls are sequential). -/
structure RateLimiter where
  pullTimes : List Int := []
  deriving DecidableEq, Repr

/-- The package-level mutable variables. -/
structure State where
  CACHE : String → Option CacheEntry := fun _ => none
  API_KEY : String := ""
  RATE_LIMITER : RateLimiter := {}

def CACHE_MAX_VALID_SECONDS : Int := 60 * 29

def RATE_LIMIT_MAX_PULLS_MINUTE : Int := 20

def RATE_LIMIT_TRACKING_MAX_SECS : Int := 61

/-- The value of `fmt.Sprintf(PULL_URL, validatedZip, API_KEY)`. -/
def pullUrl (validatedZip apiKey : String) : String :=
  "https://api.openweathermap.org/data/2.5/weather?zip=" ++ validatedZip ++ ",us&appid=" ++ apiKey

/-! ## The outside world -/

/-- A non-nil `*http.Response`: `Body` is what `ioutil.ReadAll(resp.Body)` yields, `none`
when it returns an error. -/
structure HttpResponse where
  Body : Option String
  deriving DecidableEq, Repr

/-- The pair returned by `http.Get`: `resp` is `none` for a nil pointer, `err` says whether
the error is non-nil.  A transport failure (unreachable host, bad scheme) is
`⟨none, true⟩`. -/
structure GetResult where
  resp : Option HttpResponse
  err : Bool
  deriving DecidableEq, Repr

/-- What one call of `Latest` reads from outside the process. -/
structure Env where
  /-- The value of `os.Getenv("OPENWEATHERMAP_API_KEY")`. -/
  getenv : String
  /-- The reading of `time.Now().Unix()` in `_CalcAge`. -/
  nowCalcAge : Int
  /-- The reading of `time.Now().Unix()` in `_WaitIfNecessary`. -/
  nowWaitIfNecessary : Int
  /-- The reading of `time.Now().Unix()` in `_Pull`. -/
  nowPull : Int
  /-- The reading of `time.Now().Unix()` in `_PopulateReturn`. -/
  nowPopulateReturn : Int
  /-- The outcome of `http.Get(url)`. -/
  httpGet : String → GetResult
  /-- The outcome of `json.Unmarshal(body, &result)`: `none` when it returns an error. -/
  jsonUnmarshal : String → Option OWMResponse

/-- The externally visible effects of a call. -/
inductive Event
  /-- The call `time.Sleep(d)`, `d` in nanoseconds. -/
  | sleep (d : Int)
  /-- The call `http.Get(url)`. -/
  | httpGet (url : String)
  deriving DecidableEq, Repr

/-! ## The program -/

/-- Source `_CalcAge`, with `secs` the clock reading. -/
def _CalcAge (entry : CacheEntry) (secs : Int) : Int :=
  wrapInt64 (entry.timestamp - secs)

/-- Source `_Validate`. -/
def _Validate (zip : String) : String × Bool :=
  let r := Atoi zip
  if r.2 = none then (zip, decide (r.1 ≥ 0) && decide (r.1 ≤ 99999))
  else ("ERROR", false)

/-- Source `_PopulateReturn`, with `now` the clock reading. -/
def _PopulateReturn (entry : CacheEntry) (errorString : String) (now : Int) : AreaWeatherData :=
  { temp := entry.temp, humidity := entry.humidity, windSpeed := entry.windSpeed,
    dataAgeSeconds := Itoa (wrapInt64 (entry.timestamp - now)),
    error := errorString }

/-- Source `_Pull`: `none` is the nil-pointer panic of `resp.Body` when `http.Get` returned no
response. -/
def _Pull (env : Env) (apiKey : String) (validatedZip : String) : Option (CacheEntry × Bool) :=
  let ret : CacheEntry := {}
  let reqString := pullUrl validatedZip apiKey
  let g := env.httpGet reqString
  match g.resp with
  | none => none
  | some resp =>
    match g.err, resp.Body with
    | false, some respBody =>
      match env.jsonUnmarshal respBody with
      | none => some (ret, false)
      | some result =>
        some ({ temp := result.Main.Temp.sprintf_f,
                humidity := Itoa result.Main.Humidity,
                windSpeed := result.Wind.Speed.sprintf_f,
                timestamp := env.nowPull }, true)
    | _, _ => some (ret, false)

/-- The clean-up loop of `_WaitIfNecessary`: drop entries from the front while they are more
than `RATE_LIMIT_TRACKING_MAX_SECS` old. -/
def prunePullTimes (nowEpochSecs : Int) : List Int → List Int
  | [] => []
  | oldest :: rest =>
    if wrapInt64 (nowEpochSecs - oldest) > RATE_LIMIT_TRACKING_MAX_SECS then
      prunePullTimes nowEpochSecs rest
    else oldest :: rest

/-- Result of `_WaitIfNecessary`: the new list of pull times, and the argument of
`time.Sleep` in nanoseconds (`none` on the early return, which does not sleep). -/
structure WaitResult where
  pullTimes : List Int
  sleep : Option Int
  deriving DecidableEq, Repr

/-- Source `_WaitIfNecessary`, with `nowEpochSecs` the clock reading. -/
def _WaitIfNecessary (nowEpochSecs : Int) (pullTimes : List Int) : WaitResult :=
  let pruned := prunePullTimes nowEpochSecs pullTimes
  if h : (pruned.length : Int) < RATE_LIMIT_MAX_PULLS_MINUTE then
    { pullTimes := pruned ++ [nowEpochSecs], sleep := none }
  else
    let oldestSecs := pruned.head (by
      intro hnil
      apply h
      rw [hnil]
      decide)
    let waitSecs := wrapInt64 (RATE_LIMIT_TRACKING_MAX_SECS - wrapInt64 (nowEpochSecs - oldestSecs))
    { pullTimes := pruned, sleep := some (wrapInt64 (waitSecs * 1000000000)) }

/-- What a call of `Latest` that returns leaves behind. -/
structure LatestOut where
  ret : AreaWeatherData
  state : State
  trace : List Event

/-- The events of an admission: a `time.Sleep` when the limiter waits. -/
def sleepEvents (w : WaitResult) : List Event :=
  match w.sleep with
  | none => []
  | some d => [Event.sleep d]

/-- The first statement of `Latest`: `if (API_KEY == "") { API_KEY = os.Getenv(...) }`. -/
def hotConfigUpdate (env : Env) (st : State) : State :=
  if st.API_KEY = "" then { st with API_KEY := env.getenv } else st

/-- Source `Latest`.  `none` is a panic. -/
def Latest (env : Env) (st : State) (zip : String) : Option LatestOut :=
  let st : State := hotConfigUpdate env st
  let v := _Validate zip
  let validatedZip := v.1
  if !v.2 then
    some { ret := { error := "Invalid zip(" ++ zip ++ "), accepted values are 00000 to 99999" },
           state := st, trace := [] }
  else
    let found := st.CACHE validatedZip
    let cachedData : CacheEntry := found.getD {}
    let ok : Bool :=
      match found with
      | some e => !decide (_CalcAge e env.nowCalcAge > CACHE_MAX_VALID_SECONDS)
      | none => false
    let errorString : String :=
      match found with
      | some _ => ""
      | none => "No data for zip " ++ validatedZip ++ "\n"
    if !ok then
      let w := _WaitIfNecessary env.nowWaitIfNecessary st.RATE_LIMITER.pullTimes
      let st : State := { st with RATE_LIMITER := { pullTimes := w.pullTimes } }
      let trace := sleepEvents w ++ [Event.httpGet (pullUrl validatedZip st.API_KEY)]
      match _Pull env st.API_KEY validatedZip with
      | none => none
      | some (updatedData, pulled) =>
        if !pulled then
          some { ret := _PopulateReturn cachedData "" env.nowPopulateReturn,
                 state := st, trace := trace }
        else
          some { ret := _PopulateReturn updatedData "" env.nowPopulateReturn,
                 state := { st with CACHE := fun k => if k = validatedZip then some updatedData
                                                       else st.CACHE k },
                 trace := trace }
    else
      some { ret := _PopulateReturn cachedData errorString env.nowPopulateReturn,
             state := st, trace := [] }

/-! ## Sequences of admissions -/

/-- Seconds for which an admission blocks: `time.Sleep(d)` returns at once when `d <= 0`. -/
def sleptSeconds (w : WaitResult) : Int :=
  match w.sleep with
  | none => 0
  | some d => if d ≤ 0 then 0 else d / 1000000000

/-- The times at which the outbound provider calls are issued when `_WaitIfNecessary` is
called at the successive clock readings `calls`, starting from the limiter `pullTimes`: each
call is issued when its admission returns. -/
def issueTimes : List Int → List Int → List Int
  | [], _ => []
  | now :: rest, pullTimes =>
    let w := _WaitIfNecessary now pullTimes
    (now + sleptSeconds w) :: issueTimes rest w.pullTimes

/-- Number of issued calls in the interval of `RATE_LIMIT_TRACKING_MAX_SECS` seconds that
starts at `t`. -/
def callsInWindow (t : Int) (issued : List Int) : Nat :=
  (issued.filter (fun x => decide (t ≤ x ∧ x < t + RATE_LIMIT_TRACKING_MAX_SECS))).length

/-! ## Reading of the specification's words -/

/-- Positional value of a string of decimal digits, continuing from `n`. -/
def decimalValueFrom (n : Nat) (ds : List Char) : Nat :=
  ds.foldl (fun acc c => acc * 10 + (c.toNat - 48)) n

/-- Reading of "parses as a base-10 integer": an optional sign followed by one or more
decimal digits, denoting the usual positional value. -/
def parseBase10 (s : String) : Option Int :=
  match s.data with
  | [] => none
  | c :: cs =>
    let ds := if c = '+' ∨ c = '-' then cs else c :: cs
    if ds ≠ [] ∧ ds.all isDecimalDigit = true then
      some (if c = '-' then -(decimalValueFrom 0 ds : Int) else (decimalValueFrom 0 ds : Int))
    else none

/-- Reading of "a snapshot is fresh iff `now - observedAt <= FRESHNESS_WINDOW_SECONDS`". -/
def isFresh (entry : CacheEntry) (now : Int) : Prop :=
  now - entry.timestamp ≤ CACHE_MAX_VALID_SECONDS

instance (entry : CacheEntry) (now : Int) : Decidable (isFresh entry now) := by
  unfold isFresh
  infer_instance

/-- A clock reading of a real run: epoch seconds, not before 1970 and within `int64`. -/
def isEpochSecs (t : Int) : Prop := 0 ≤ t ∧ t < 2 ^ 63

instance (t : Int) : Decidable (isEpochSecs t) := by
  unfold isEpochSecs
  infer_instance

/-! ## Concrete inputs -/

/-- A decoded provider answer. -/
def sampleResponse : OWMResponse :=
  { Main := { Temp := ⟨"289.150000"⟩, Humidity := 45 }, Wind := { Speed := ⟨"3.600000"⟩ } }

/-- An environment in which the provider answers every request with a decodable body and
every clock reading is `now`. -/
def reachableEnv (now : Int) : Env :=
  { getenv := "809f761fd91b3990cdc45262b01aa174",
    nowCalcAge := now, nowWaitIfNecessary := now, nowPull := now, nowPopulateReturn := now,
    httpGet := fun _ => { resp := some { Body := some "body" }, err := false },
    jsonUnmarshal := fun _ => some sampleResponse }

/-- An environment in which the provider cannot be reached: `http.Get` returns a nil response
and a non-nil error. -/
def unreachableEnv (now : Int) : Env :=
  { reachableEnv now with httpGet := fun _ => { resp := none, err := true } }

/-- An environment in which the provider answers but reading the body fails. -/
def readErrorEnv (now : Int) : Env :=
  { reachableEnv now with httpGet := fun _ => { resp := some { Body := none }, err := false } }

/-- A cache entry stamped at `t`. -/
def sampleEntry (t : Int) : CacheEntry :=
  { temp := "280.000000", humidity := "50", windSpeed := "1.000000", timestamp := t }

/-- A state whose cache holds exactly `e` under `zip`. -/
def stateWith (zip : String) (e : CacheEntry) : State :=
  { CACHE := fun k => if k = zip then some e else none }

/-- Whether the clock readings `calls` respect the blocking of the admissions: every call
is made at or after the time at which the previous admission returned. -/
def clockRespected : List Int → List Int → Bool
  | [], _ => true
  | now :: rest, pullTimes =>
    let w := _WaitIfNecessary now pullTimes
    (match rest with
      | [] => true
      | next :: _ => decide (now + sleptSeconds w ≤ next)) && clockRespected rest w.pullTimes

/-- Twenty admissions at time 0 followed by twenty-one at time 61. -/
def burstCalls : List Int := List.replicate 20 0 ++ List.replicate 21 61

/-- Twenty-one admissions at time 0 followed by twenty at time 62. -/
def waitThenBurstCalls : List Int := List.replicate 21 0 ++ List.replicate 20 62

/-- The part of `ParseInt` after the sign has been picked off. -/
def parseIntAfterSign (neg : Bool) (s1 : List Char) : Int × Option NumError :=
  let r := ParseUint s1 0
  if r.2 = some .ErrSyntax then (0, some .ErrSyntax)
  else
    let cutoff : Nat := 2 ^ (IntSize - 1)
    if !neg && decide (r.1 ≥ cutoff) then (((cutoff - 1 : Nat) : Int), some .ErrRange)
    else if neg && decide (r.1 > cutoff) then (-(cutoff : Int), some .ErrRange)
    else (if neg then wrapInt64 (-(wrapInt64 r.1)) else wrapInt64 r.1, none)


/-! ## Runs -/

/-- The list of pull times after `_WaitIfNecessary` has been called at the successive clock
readings `calls`, starting from `pullTimes`. -/
def limiterAfter : List Int → List Int → List Int
  | [], pullTimes => pullTimes
  | now :: rest, pullTimes => limiterAfter rest (_WaitIfNecessary now pullTimes).pullTimes

/-- The clock readings of a call of `Latest`, in the order in which the call takes them.  A
path that skips a call site does not use its reading, which can then be taken equal to a
neighbouring one. -/
def callReadings (env : Env) : List Int :=
  [env.nowCalcAge, env.nowWaitIfNecessary, env.nowPull, env.nowPopulateReturn]

/-- The clock readings of a sequence of calls of `Latest`, in order. -/
def clockReadings : List (Env × String) → List Int
  | [] => []
  | c :: rest => callReadings c.1 ++ clockReadings rest

/-- The states left by the successive calls `Latest(zip)` of a run that starts in `st`; a
panic ends the run. -/
def runLatest : List (Env × String) → State → List State
  | [], _ => []
  | c :: rest, st =>
    match Latest c.1 st c.2 with
    | none => []
    | some out => out.state :: runLatest rest out.state

/-- The stored timestamp of no key decreases from state `s` to state `t`. -/
def timestampsNotDecreasing (s t : State) : Prop :=
  ∀ k e e', s.CACHE k = some e → t.CACHE k = some e' → e.timestamp ≤ e'.timestamp

/-! # Theorems -/

/-! ## Arithmetic and parsing lemmas -/

theorem wrapInt64_eq_self (x : Int) (h1 : -2 ^ 63 ≤ x) (h2 : x < 2 ^ 63) : wrapInt64 x = x := by
  unfold wrapInt64
  omega

theorem decimalValueFrom_cons (n : Nat) (c : Char) (cs : List Char) :
    decimalValueFrom n (c :: cs) = decimalValueFrom (n * 10 + (c.toNat - 48)) cs := rfl

theorem decimalValueFrom_ge (ds : List Char) : ∀ n, n ≤ decimalValueFrom n ds := by
  induction ds with
  | nil => intro n; exact Nat.le_refl n
  | cons c cs ih =>
    intro n
    have h := ih (n * 10 + (c.toNat - 48))
    rw [decimalValueFrom_cons]
    omega

theorem isDecimalDigit_le (c : Char) (hc : isDecimalDigit c = true) : c.toNat - 48 ≤ 9 := by
  simp only [isDecimalDigit, Bool.and_eq_true, decide_eq_true_eq] at hc
  omega

theorem parseUintLoop_cons_digit (M : Nat) (c : Char) (cs : List Char) (n : Nat)
    (hc : isDecimalDigit c = true) :
    parseUintLoop M (c :: cs) n =
      if n ≥ 1844674407370955162 then (M, some .ErrRange)
      else if (n * 10 % 18446744073709551616 + (c.toNat - 48)) % 18446744073709551616
                < n * 10 % 18446744073709551616
              ∨ (n * 10 % 18446744073709551616 + (c.toNat - 48)) % 18446744073709551616 > M then
        (M, some .ErrRange)
      else parseUintLoop M cs
        ((n * 10 % 18446744073709551616 + (c.toNat - 48)) % 18446744073709551616) := by
  rw [parseUintLoop, if_pos hc]
  rfl

/-- On a string of digits the loop returns the positional value, or a range error when that
value does not fit in 64 bits. -/
theorem parseUintLoop_digits (cs : List Char) : ∀ n, n ≤ 18446744073709551615 →
    cs.all isDecimalDigit = true →
    parseUintLoop 18446744073709551615 cs n =
      if decimalValueFrom n cs ≤ 18446744073709551615 then (decimalValueFrom n cs, none)
      else (18446744073709551615, some .ErrRange) := by
  induction cs with
  | nil =>
    intro n hn _
    simp [parseUintLoop, decimalValueFrom, hn]
  | cons c cs ih =>
    intro n hn hall
    rw [List.all_cons, Bool.and_eq_true] at hall
    obtain ⟨hc, hcs⟩ := hall
    have hd := isDecimalDigit_le c hc
    have hge := decimalValueFrom_ge cs (n * 10 + (c.toNat - 48))
    rw [parseUintLoop_cons_digit _ _ _ _ hc, decimalValueFrom_cons]
    by_cases hcut : n ≥ 1844674407370955162
    · rw [if_pos hcut, if_neg (by omega)]
    · rw [if_neg hcut]
      have e1 : n * 10 % 18446744073709551616 = n * 10 := by omega
      rw [e1]
      by_cases hfit : n * 10 + (c.toNat - 48) ≤ 18446744073709551615
      · have e2 : (n * 10 + (c.toNat - 48)) % 18446744073709551616 = n * 10 + (c.toNat - 48) := by
          omega
        rw [e2, if_neg (by omega)]
        exact ih _ hfit hcs
      · rw [if_pos (by omega), if_neg (by omega)]

/-- On a string with a byte that is not a digit the loop ends in an error. -/
theorem parseUintLoop_nondigit (M : Nat) (cs : List Char) : ∀ n,
    cs.all isDecimalDigit = false →
    parseUintLoop M cs n = (0, some .ErrSyntax) ∨ parseUintLoop M cs n = (M, some .ErrRange) := by
  induction cs with
  | nil => intro n h; simp at h
  | cons c cs ih =>
    intro n hall
    by_cases hc : isDecimalDigit c = true
    · rw [List.all_cons, hc, Bool.true_and] at hall
      rw [parseUintLoop_cons_digit _ _ _ _ hc]
      split
      · exact Or.inr rfl
      · split
        · exact Or.inr rfl
        · exact ih _ hall
    · left
      rw [parseUintLoop, if_neg hc]

theorem ParseInt_cons (c : Char) (cs : List Char) :
    ParseInt (c :: cs) 0 =
      parseIntAfterSign (decide (c = '-')) (if c = '+' ∨ c = '-' then cs else c :: cs) := by
  by_cases h1 : c = '+'
  · subst h1; rfl
  · by_cases h2 : c = '-'
    · subst h2; rfl
    · simp [ParseInt, parseIntAfterSign, h1, h2]

theorem ParseUint_zero (ds : List Char) :
    ParseUint ds 0 = if ds = [] then (0, some .ErrSyntax)
      else parseUintLoop 18446744073709551615 ds 0 := by
  unfold ParseUint
  split
  · rfl
  · rfl

theorem parseIntAfterSign_ok (neg : Bool) (ds : List Char) :
    ((parseIntAfterSign neg ds).2 = none ∧ 0 ≤ (parseIntAfterSign neg ds).1
        ∧ (parseIntAfterSign neg ds).1 ≤ 99999) ↔
      (ds ≠ [] ∧ ds.all isDecimalDigit = true ∧
        0 ≤ (if neg = true then -(decimalValueFrom 0 ds : Int) else (decimalValueFrom 0 ds : Int)) ∧
        (if neg = true then -(decimalValueFrom 0 ds : Int) else (decimalValueFrom 0 ds : Int))
          ≤ 99999) := by
  unfold parseIntAfterSign
  rw [ParseUint_zero]
  by_cases hnil : ds = []
  · simp [hnil]
  · rw [if_neg hnil]
    cases hall : ds.all isDecimalDigit with
    | false =>
      rcases parseUintLoop_nondigit 18446744073709551615 ds 0 hall with h | h
      · simp [h]
      · rw [h]
        cases neg <;> simp [IntSize]
    | true =>
      rw [parseUintLoop_digits ds 0 (by omega) hall]
      by_cases hV : decimalValueFrom 0 ds ≤ 18446744073709551615
      · rw [if_pos hV]
        generalize decimalValueFrom 0 ds = V at hV
        cases neg
        · by_cases hc : V ≥ 9223372036854775808
          · simp [IntSize, hnil, hc]
            omega
          · simp [IntSize, hnil, hc, wrapInt64]
            omega
        · by_cases hc : V > 9223372036854775808
          · simp [IntSize, hnil, hc]
            omega
          · simp [IntSize, hnil, hc, wrapInt64]
            omega
      · rw [if_neg hV]
        cases neg
        · simp [IntSize, hnil]
          omega
        · simp [IntSize, hnil]
          omega

/-- The flag returned by `_Validate` is set exactly when the input reads as a base-10 integer
between 0 and 99999. -/
theorem Validate_ok_iff (s : String) :
    (_Validate s).2 = true ↔ ∃ n : Int, parseBase10 s = some n ∧ 0 ≤ n ∧ n ≤ 99999 := by
  have key : (_Validate s).2 = true ↔
      ((Atoi s).2 = none ∧ 0 ≤ (Atoi s).1 ∧ (Atoi s).1 ≤ 99999) := by
    unfold _Validate
    by_cases h : (Atoi s).2 = none
    · simp [h]
    · simp [h]
  rw [key]
  unfold Atoi parseBase10
  cases hs : s.data with
  | nil => simp [ParseInt]
  | cons c cs =>
    rw [ParseInt_cons, parseIntAfterSign_ok]
    simp only [decide_eq_true_eq]
    generalize (if c = '+' ∨ c = '-' then cs else c :: cs) = ds
    by_cases hds : ds ≠ [] ∧ ds.all isDecimalDigit = true
    · rw [if_pos hds]
      constructor
      · rintro ⟨_, _, h3, h4⟩
        exact ⟨_, rfl, h3, h4⟩
      · rintro ⟨n, hn, h3, h4⟩
        cases hn
        exact ⟨hds.1, hds.2, h3, h4⟩
    · rw [if_neg hds]
      constructor
      · rintro ⟨h1, h2, _, _⟩
        exact absurd ⟨h1, h2⟩ hds
      · rintro ⟨n, hn, _, _⟩
        cases hn

/-- An accepted input is returned unchanged as the validated key. -/
theorem Validate_fst (zip : String) (h : (_Validate zip).2 = true) : (_Validate zip).1 = zip := by
  unfold _Validate at h ⊢
  by_cases hr : (Atoi zip).2 = none
  · simp [hr]
  · simp [hr] at h

theorem toDigitsCore_ne_nil (b : Nat) : ∀ (fuel n : Nat) (ds : List Char), ds ≠ [] →
    Nat.toDigitsCore b fuel n ds ≠ [] := by
  intro fuel
  induction fuel with
  | zero => intro n ds h; simpa [Nat.toDigitsCore] using h
  | succ f ih =>
    intro n ds _
    rw [Nat.toDigitsCore]
    split
    · exact List.cons_ne_nil _ _
    · exact ih _ _ (List.cons_ne_nil _ _)

theorem Nat_repr_ne_empty (n : Nat) : Nat.repr n ≠ "" := by
  intro h
  have h1 : (Nat.repr n).data = [] := by rw [h]
  have h2 : Nat.toDigits 10 n ≠ [] := by
    unfold Nat.toDigits
    rw [Nat.toDigitsCore]
    split
    · exact List.cons_ne_nil _ _
    · exact toDigitsCore_ne_nil _ _ _ _ (List.cons_ne_nil _ _)
  exact h2 h1

/-- The decimal rendering of an integer is never the empty string. -/
theorem Itoa_ne_empty (i : Int) : Itoa i ≠ "" := by
  intro h
  unfold Itoa at h
  split at h
  · have hl := congrArg String.length h
    rw [String.length_append] at hl
    have : "-".length = 1 := rfl
    have : "".length = 0 := rfl
    omega
  · exact Nat_repr_ne_empty _ h

/-! ## The paths through `Latest` -/

theorem hotConfigUpdate_CACHE (env : Env) (st : State) :
    (hotConfigUpdate env st).CACHE = st.CACHE := by
  unfold hotConfigUpdate
  split <;> rfl

theorem hotConfigUpdate_RATE_LIMITER (env : Env) (st : State) :
    (hotConfigUpdate env st).RATE_LIMITER = st.RATE_LIMITER := by
  unfold hotConfigUpdate
  split <;> rfl

/-- Rejected input: `Latest` returns at once with the error message. -/
theorem Latest_invalid (env : Env) (st : State) (zip : String)
    (h : (_Validate zip).2 = false) :
    Latest env st zip =
      some { ret := { error := "Invalid zip(" ++ zip ++ "), accepted values are 00000 to 99999" },
             state := hotConfigUpdate env st, trace := [] } := by
  unfold Latest
  simp [h]

/-- Accepted input whose entry passes the age test of `Latest`: the entry is returned and
nothing else happens. -/
theorem Latest_cache_hit (env : Env) (st : State) (zip : String) (e : CacheEntry)
    (hv : (_Validate zip).2 = true) (he : st.CACHE zip = some e)
    (hage : _CalcAge e env.nowCalcAge ≤ CACHE_MAX_VALID_SECONDS) :
    Latest env st zip =
      some { ret := _PopulateReturn e "" env.nowPopulateReturn,
             state := hotConfigUpdate env st, trace := [] } := by
  have hk := Validate_fst zip hv
  unfold Latest
  simp [hv, hk, hotConfigUpdate_CACHE, he, not_lt.mpr hage]

/-- Accepted input with no entry passing the age test, and `_Pull` panics: so does `Latest`. -/
theorem Latest_fetch_panic (env : Env) (st : State) (zip : String)
    (hv : (_Validate zip).2 = true)
    (hok : ∀ e, st.CACHE zip = some e → _CalcAge e env.nowCalcAge > CACHE_MAX_VALID_SECONDS)
    (hp : _Pull env (hotConfigUpdate env st).API_KEY zip = none) :
    Latest env st zip = none := by
  have hk := Validate_fst zip hv
  unfold Latest
  cases he : st.CACHE zip with
  | none => simp [hv, hk, hotConfigUpdate_CACHE, he, hp]
  | some e => simp [hv, hk, hotConfigUpdate_CACHE, he, hok e he, hp]

/-- Accepted input with no entry passing the age test, and `_Pull` reports failure: the
result is built from the looked-up entry (the zero entry when there is none). -/
theorem Latest_fetch_failed (env : Env) (st : State) (zip : String) (x : CacheEntry)
    (hv : (_Validate zip).2 = true)
    (hok : ∀ e, st.CACHE zip = some e → _CalcAge e env.nowCalcAge > CACHE_MAX_VALID_SECONDS)
    (hp : _Pull env (hotConfigUpdate env st).API_KEY zip = some (x, false)) :
    Latest env st zip =
      some { ret := _PopulateReturn ((st.CACHE zip).getD {}) "" env.nowPopulateReturn,
             state := { hotConfigUpdate env st with
                        RATE_LIMITER := { pullTimes := (_WaitIfNecessary env.nowWaitIfNecessary
                          st.RATE_LIMITER.pullTimes).pullTimes } },
             trace := sleepEvents (_WaitIfNecessary env.nowWaitIfNecessary
                          st.RATE_LIMITER.pullTimes)
                        ++ [Event.httpGet (pullUrl zip (hotConfigUpdate env st).API_KEY)] } := by
  have hk := Validate_fst zip hv
  unfold Latest
  cases he : st.CACHE zip with
  | none => simp [hv, hk, hotConfigUpdate_CACHE, hotConfigUpdate_RATE_LIMITER, he, hp]
  | some e =>
    simp [hv, hk, hotConfigUpdate_CACHE, hotConfigUpdate_RATE_LIMITER, he, hok e he, hp]

/-- Accepted input with no entry passing the age test, and `_Pull` succeeds with `s`: `s` is
stored under the key and returned. -/
theorem Latest_fetch_ok (env : Env) (st : State) (zip : String) (s : CacheEntry)
    (hv : (_Validate zip).2 = true)
    (hok : ∀ e, st.CACHE zip = some e → _CalcAge e env.nowCalcAge > CACHE_MAX_VALID_SECONDS)
    (hp : _Pull env (hotConfigUpdate env st).API_KEY zip = some (s, true)) :
    Latest env st zip =
      some { ret := _PopulateReturn s "" env.nowPopulateReturn,
             state := { hotConfigUpdate env st with
                        CACHE := fun k => if k = zip then some s else st.CACHE k,
                        RATE_LIMITER := { pullTimes := (_WaitIfNecessary env.nowWaitIfNecessary
                          st.RATE_LIMITER.pullTimes).pullTimes } },
             trace := sleepEvents (_WaitIfNecessary env.nowWaitIfNecessary
                          st.RATE_LIMITER.pullTimes)
                        ++ [Event.httpGet (pullUrl zip (hotConfigUpdate env st).API_KEY)] } := by
  have hk := Validate_fst zip hv
  unfold Latest
  cases he : st.CACHE zip with
  | none => simp [hv, hk, hotConfigUpdate_CACHE, hotConfigUpdate_RATE_LIMITER, he, hp]
  | some e =>
    simp [hv, hk, hotConfigUpdate_CACHE, hotConfigUpdate_RATE_LIMITER, he, hok e he, hp]

/-- When `_Pull` reports failure the entry it returns is the zero entry. -/
theorem Pull_failed_entry (env : Env) (key zip : String) (x : CacheEntry)
    (h : _Pull env key zip = some (x, false)) : x = {} := by
  unfold _Pull at h
  simp only [] at h
  split at h
  · cases h
  · split at h
    · split at h
      · cases h; rfl
      · cases h
    · cases h; rfl

/-- An entry stamped in the past passes the age test of `Latest`, however old it is. -/
theorem CalcAge_le_of_past (e : CacheEntry) (now : Int)
    (hts : isEpochSecs e.timestamp) (hnow : isEpochSecs now) (hpast : e.timestamp ≤ now) :
    _CalcAge e now ≤ CACHE_MAX_VALID_SECONDS := by
  unfold isEpochSecs at hts hnow
  unfold _CalcAge
  rw [wrapInt64_eq_self _ (by omega) (by omega)]
  unfold CACHE_MAX_VALID_SECONDS
  omega

/-! ## The claims -/

/-- C1 (rate-limit bound), evaluated on the code.  Two runs from the empty limiter with a
non-decreasing clock put 21 outbound calls, more than `RATE_LIMIT_MAX_PULLS_MINUTE`, in the
61-second interval starting at time 61.  In `burstCalls` twenty calls are admitted at time 0
and twenty-one more at time 61: the entries stamped 0 are exactly 61 seconds old, so they are
not pruned, and every one of the later calls takes the wait branch with a wait of 0 seconds
and is issued at once without being recorded.  In `waitThenBurstCalls` the 21st call at time 0
waits until 61 and is issued unrecorded, and twenty calls follow at time 62. -/
theorem rate_limit_bound_exceeded :
    clockRespected burstCalls [] = true
    ∧ issueTimes burstCalls [] = List.replicate 20 0 ++ List.replicate 21 61
    ∧ callsInWindow 61 (issueTimes burstCalls []) = 21
    ∧ clockRespected waitThenBurstCalls [] = true
    ∧ issueTimes waitThenBurstCalls [] = List.replicate 20 0 ++ [61] ++ List.replicate 20 62
    ∧ callsInWindow 61 (issueTimes waitThenBurstCalls []) = 21
    ∧ RATE_LIMIT_MAX_PULLS_MINUTE < 21 := by
  decide

/-- C2 (freshness and expiry), evaluated on the code.  A snapshot stamped 1741 seconds before
the call is not fresh, yet `Latest` serves it without contacting the provider: the trace of the
call is empty and the result carries the cached fields. -/
theorem stale_snapshot_served_without_fetch :
    ¬ isFresh (sampleEntry 1700000000) 1700001741
    ∧ (Latest (reachableEnv 1700001741) (stateWith "90210" (sampleEntry 1700000000)) "90210").map
        (fun o => (o.ret, o.trace))
      = some ({ temp := "280.000000", humidity := "50", windSpeed := "1.000000",
                dataAgeSeconds := "-1741", error := "" }, []) := by
  decide

/-- C3 (validation).  For every input string, `_Validate` returns `ok = true` exactly when the
string reads as a base-10 integer `n` with `0 <= n <= 99999`; "0", "99999" and "90210" are
accepted and "-1", "100000" and "abc" are rejected. -/
theorem validate_accepts_exactly_zip_range :
    (∀ s : String,
      (_Validate s).2 = true ↔ ∃ n : Int, parseBase10 s = some n ∧ 0 ≤ n ∧ n ≤ 99999)
    ∧ (_Validate "0").2 = true ∧ (_Validate "99999").2 = true ∧ (_Validate "90210").2 = true
    ∧ (_Validate "-1").2 = false ∧ (_Validate "100000").2 = false
    ∧ (_Validate "abc").2 = false :=
  ⟨Validate_ok_iff, by decide, by decide, by decide, by decide, by decide, by decide⟩

/-- C4 (invalid input).  For every input that `_Validate` rejects, `Latest` returns a result
whose temp, humidity, windSpeed and dataAgeSeconds are empty and whose error is
"Invalid zip(<input>), accepted values are 00000 to 99999"; the cache and the limiter are
unchanged and the trace holds no provider call (it is empty). -/
theorem invalid_zip_rejected (env : Env) (st : State) (zip : String)
    (h : (_Validate zip).2 = false) :
    ∃ out, Latest env st zip = some out
      ∧ out.ret.temp = "" ∧ out.ret.humidity = "" ∧ out.ret.windSpeed = ""
      ∧ out.ret.dataAgeSeconds = ""
      ∧ out.ret.error = "Invalid zip(" ++ zip ++ "), accepted values are 00000 to 99999"
      ∧ out.state.CACHE = st.CACHE ∧ out.state.RATE_LIMITER = st.RATE_LIMITER
      ∧ out.trace = [] :=
  ⟨_, Latest_invalid env st zip h, rfl, rfl, rfl, rfl, rfl, hotConfigUpdate_CACHE env st,
    hotConfigUpdate_RATE_LIMITER env st, rfl⟩

/-- Witness of C4 at the input "-5". -/
theorem invalid_zip_rejected_witness :
    (_Validate "-5").2 = false
    ∧ ∃ out, Latest (reachableEnv 1700000000) (stateWith "90210" (sampleEntry 1700000000)) "-5"
          = some out
      ∧ out.ret.temp = "" ∧ out.ret.humidity = "" ∧ out.ret.windSpeed = ""
      ∧ out.ret.dataAgeSeconds = ""
      ∧ out.ret.error = "Invalid zip(" ++ "-5" ++ "), accepted values are 00000 to 99999"
      ∧ out.state.CACHE = (stateWith "90210" (sampleEntry 1700000000)).CACHE
      ∧ out.state.RATE_LIMITER = (stateWith "90210" (sampleEntry 1700000000)).RATE_LIMITER
      ∧ out.trace = [] :=
  ⟨by decide, invalid_zip_rejected _ _ "-5" (by decide)⟩

/-- C5 as stated fails: two calls for a key holding a fresh snapshot, one second apart and both
within the freshness window, return different dataAgeSeconds ("0", then "-1"). -/
theorem cache_hit_data_age_differs :
    isFresh (sampleEntry 1700000000) 1700000000 ∧ isFresh (sampleEntry 1700000000) 1700000001
    ∧ (Latest (reachableEnv 1700000000) (stateWith "06883" (sampleEntry 1700000000)) "06883").map
        (fun o => o.ret.dataAgeSeconds) = some "0"
    ∧ ((Latest (reachableEnv 1700000000) (stateWith "06883" (sampleEntry 1700000000)) "06883").bind
        (fun o => Latest (reachableEnv 1700000001) o.state "06883")).map
        (fun o => o.ret.dataAgeSeconds) = some "-1" := by
  decide

/-- C5, amended.  For every key holding a snapshot taken at or before two call times and fresh
at both, the two successive calls of `Latest` return the same temp, humidity, windSpeed and
error; dataAgeSeconds is computed from the clock at each call, and the two results are equal
in all five fields when the two calls read the same clock value.  Neither call contacts the
provider (both traces are empty) and the cache and the limiter are unchanged after each. -/
theorem cache_hit_repeatable (env1 env2 : Env) (st : State) (zip : String) (e : CacheEntry)
    (hv : (_Validate zip).2 = true) (he : st.CACHE zip = some e)
    (hts : isEpochSecs e.timestamp)
    (hnow1 : isEpochSecs env1.nowCalcAge) (hnow2 : isEpochSecs env2.nowCalcAge)
    (hpast1 : e.timestamp ≤ env1.nowCalcAge) (hpast2 : e.timestamp ≤ env2.nowCalcAge)
    (_hfresh1 : isFresh e env1.nowCalcAge) (_hfresh2 : isFresh e env2.nowCalcAge) :
    ∃ out1 out2, Latest env1 st zip = some out1 ∧ Latest env2 out1.state zip = some out2
      ∧ out1.ret.temp = out2.ret.temp ∧ out1.ret.humidity = out2.ret.humidity
      ∧ out1.ret.windSpeed = out2.ret.windSpeed ∧ out1.ret.error = out2.ret.error
      ∧ (env1.nowPopulateReturn = env2.nowPopulateReturn → out1.ret = out2.ret)
      ∧ out1.trace = [] ∧ out2.trace = []
      ∧ out1.state.CACHE = st.CACHE ∧ out1.state.RATE_LIMITER = st.RATE_LIMITER
      ∧ out2.state.CACHE = st.CACHE ∧ out2.state.RATE_LIMITER = st.RATE_LIMITER := by
  have h1 := Latest_cache_hit env1 st zip e hv he (CalcAge_le_of_past e _ hts hnow1 hpast1)
  have h2 := Latest_cache_hit env2 (hotConfigUpdate env1 st) zip e hv
    (by rw [hotConfigUpdate_CACHE]; exact he) (CalcAge_le_of_past e _ hts hnow2 hpast2)
  refine ⟨_, _, h1, h2, rfl, rfl, rfl, rfl, ?_, rfl, rfl, hotConfigUpdate_CACHE _ _,
    hotConfigUpdate_RATE_LIMITER _ _, ?_, ?_⟩
  · intro hclock
    simp only [hclock]
  · simp only [hotConfigUpdate_CACHE]
  · simp only [hotConfigUpdate_RATE_LIMITER]

/-- Witness of the amended C5: a snapshot stamped 1700000000, calls at 1700000000 and
1700000060. -/
theorem cache_hit_repeatable_witness :
    (_Validate "06883").2 = true
    ∧ (stateWith "06883" (sampleEntry 1700000000)).CACHE "06883" = some (sampleEntry 1700000000)
    ∧ isFresh (sampleEntry 1700000000) 1700000000 ∧ isFresh (sampleEntry 1700000000) 1700000060
    ∧ ∃ out1 out2,
        Latest (reachableEnv 1700000000) (stateWith "06883" (sampleEntry 1700000000)) "06883"
          = some out1
      ∧ Latest (reachableEnv 1700000060) out1.state "06883" = some out2
      ∧ out1.ret.temp = out2.ret.temp ∧ out1.ret.humidity = out2.ret.humidity
      ∧ out1.ret.windSpeed = out2.ret.windSpeed ∧ out1.ret.error = out2.ret.error
      ∧ ((reachableEnv 1700000000).nowPopulateReturn = (reachableEnv 1700000060).nowPopulateReturn
          → out1.ret = out2.ret)
      ∧ out1.trace = [] ∧ out2.trace = []
      ∧ out1.state.CACHE = (stateWith "06883" (sampleEntry 1700000000)).CACHE
      ∧ out1.state.RATE_LIMITER = (stateWith "06883" (sampleEntry 1700000000)).RATE_LIMITER
      ∧ out2.state.CACHE = (stateWith "06883" (sampleEntry 1700000000)).CACHE
      ∧ out2.state.RATE_LIMITER = (stateWith "06883" (sampleEntry 1700000000)).RATE_LIMITER :=
  ⟨by decide, by decide, by decide, by decide,
    cache_hit_repeatable (reachableEnv 1700000000) (reachableEnv 1700000060)
      (stateWith "06883" (sampleEntry 1700000000)) "06883" (sampleEntry 1700000000)
      (by decide) (by decide) (by decide) (by decide) (by decide) (by decide) (by decide)
      (by decide) (by decide)⟩

/-- C6 (data age), evaluated on the code.  For a snapshot stamped 60 seconds before the call,
`_PopulateReturn` renders "-60": it subtracts the clock from the timestamp, where the age
`now - observedAt` is 60. -/
theorem data_age_is_negated :
    (sampleEntry 1700000000).timestamp ≤ 1700000060
    ∧ (_PopulateReturn (sampleEntry 1700000000) "" 1700000060).dataAgeSeconds = "-60"
    ∧ Itoa (1700000060 - (sampleEntry 1700000000).timestamp) = "60" := by
  decide

/-- C7 (fetch failures never terminate the call), evaluated on the code.  When `http.Get`
fails at the transport level it returns a nil response; `_Pull` reads `resp.Body` before it
looks at the error and panics, and so does the call of `Latest` that made the request. -/
theorem transport_error_panics :
    (unreachableEnv 1700000000).httpGet (pullUrl "10001" "809f761fd91b3990cdc45262b01aa174")
      = { resp := none, err := true }
    ∧ _Pull (unreachableEnv 1700000000) "809f761fd91b3990cdc45262b01aa174" "10001" = none
    ∧ (_Validate "10001").2 = true
    ∧ (Latest (unreachableEnv 1700000000) {} "10001").isNone = true := by
  decide

/-- C8 (fallback with a cached snapshot).  For every valid key whose cache entry exists:
if the entry is not fresh, then whatever the provider does (in particular when it fails),
and also whenever `_Pull` reports a failed fetch, `Latest` returns a result whose temp,
humidity and windSpeed are those of the cached entry and whose error is empty. -/
theorem fallback_returns_cached_snapshot (env : Env) (st : State) (zip : String)
    (e : CacheEntry) (hv : (_Validate zip).2 = true) (he : st.CACHE zip = some e)
    (h : (isEpochSecs e.timestamp ∧ isEpochSecs env.nowCalcAge ∧ ¬ isFresh e env.nowCalcAge)
          ∨ ∃ x, _Pull env (hotConfigUpdate env st).API_KEY zip = some (x, false)) :
    ∃ out, Latest env st zip = some out
      ∧ out.ret.temp = e.temp ∧ out.ret.humidity = e.humidity
      ∧ out.ret.windSpeed = e.windSpeed ∧ out.ret.error = "" := by
  by_cases hage : _CalcAge e env.nowCalcAge ≤ CACHE_MAX_VALID_SECONDS
  · exact ⟨_, Latest_cache_hit env st zip e hv he hage, rfl, rfl, rfl, rfl⟩
  · rcases h with ⟨hts, hnow, hstale⟩ | ⟨x, hx⟩
    · exfalso
      apply hage
      apply CalcAge_le_of_past e _ hts hnow
      unfold isFresh CACHE_MAX_VALID_SECONDS at hstale
      omega
    · have hok : ∀ e', st.CACHE zip = some e' →
          _CalcAge e' env.nowCalcAge > CACHE_MAX_VALID_SECONDS := by
        intro e' he'
        rw [he] at he'
        cases he'
        exact not_le.mp hage
      refine ⟨_, Latest_fetch_failed env st zip x hv hok hx, ?_, ?_, ?_, rfl⟩
      · simp [he, _PopulateReturn]
      · simp [he, _PopulateReturn]
      · simp [he, _PopulateReturn]

/-- Witness of C8: a snapshot 1741 seconds old with an unreachable provider, and a snapshot
stamped ahead of the clock with a provider whose answer cannot be read. -/
theorem fallback_returns_cached_snapshot_witness :
    ((_Validate "90210").2 = true
      ∧ ¬ isFresh (sampleEntry 1700000000) (unreachableEnv 1700001741).nowCalcAge
      ∧ ∃ out, Latest (unreachableEnv 1700001741) (stateWith "90210" (sampleEntry 1700000000))
            "90210" = some out
        ∧ out.ret.temp = (sampleEntry 1700000000).temp
        ∧ out.ret.humidity = (sampleEntry 1700000000).humidity
        ∧ out.ret.windSpeed = (sampleEntry 1700000000).windSpeed ∧ out.ret.error = "")
    ∧ (_CalcAge (sampleEntry 1700002000) (readErrorEnv 1700000000).nowCalcAge
          > CACHE_MAX_VALID_SECONDS
      ∧ ∃ out, Latest (readErrorEnv 1700000000) (stateWith "90210" (sampleEntry 1700002000))
            "90210" = some out
        ∧ out.ret.temp = (sampleEntry 1700002000).temp
        ∧ out.ret.humidity = (sampleEntry 1700002000).humidity
        ∧ out.ret.windSpeed = (sampleEntry 1700002000).windSpeed ∧ out.ret.error = "") :=
  ⟨⟨by decide, by decide,
      fallback_returns_cached_snapshot (unreachableEnv 1700001741)
        (stateWith "90210" (sampleEntry 1700000000)) "90210" (sampleEntry 1700000000)
        (by decide) (by decide) (Or.inl (by decide))⟩,
    ⟨by decide,
      fallback_returns_cached_snapshot (readErrorEnv 1700000000)
        (stateWith "90210" (sampleEntry 1700002000)) "90210" (sampleEntry 1700002000)
        (by decide) (by decide) (Or.inr ⟨{}, by decide⟩)⟩⟩

/-- C9 as stated fails: for the never-seen key "10001" and a provider whose answer cannot be
read, the result has empty temp, humidity, windSpeed and error, but its dataAgeSeconds is
"-1700000000", not the empty string. -/
theorem fallback_without_cache_data_age_not_empty :
    (_Validate "10001").2 = true
    ∧ (Latest (readErrorEnv 1700000000) {} "10001").map (fun o => o.ret)
        = some { temp := "", humidity := "", windSpeed := "", dataAgeSeconds := "-1700000000",
                 error := "" }
    ∧ (Latest (readErrorEnv 1700000000) {} "10001").map (fun o => o.ret.dataAgeSeconds)
        ≠ some "" := by
  decide

/-- C9, amended.  For every valid key with no cache entry, if the fetch fails and `_Pull`
reports it, `Latest` returns a result whose temp, humidity, windSpeed and error are empty;
its dataAgeSeconds is not empty: it is the age that `_PopulateReturn` renders for the zero
entry. -/
theorem fallback_without_cache (env : Env) (st : State) (zip : String)
    (hv : (_Validate zip).2 = true) (hnone : st.CACHE zip = none)
    (hfail : ∃ x, _Pull env (hotConfigUpdate env st).API_KEY zip = some (x, false)) :
    ∃ out, Latest env st zip = some out
      ∧ out.ret.temp = "" ∧ out.ret.humidity = "" ∧ out.ret.windSpeed = ""
      ∧ out.ret.error = ""
      ∧ out.ret.dataAgeSeconds = (_PopulateReturn {} "" env.nowPopulateReturn).dataAgeSeconds
      ∧ out.ret.dataAgeSeconds ≠ "" := by
  obtain ⟨x, hx⟩ := hfail
  have hok : ∀ e', st.CACHE zip = some e' →
      _CalcAge e' env.nowCalcAge > CACHE_MAX_VALID_SECONDS := by
    intro e' he'
    rw [hnone] at he'
    cases he'
  refine ⟨_, Latest_fetch_failed env st zip x hv hok hx, ?_, ?_, ?_, rfl, ?_, ?_⟩
  · simp [hnone, _PopulateReturn]
  · simp [hnone, _PopulateReturn]
  · simp [hnone, _PopulateReturn]
  · simp [hnone]
  · exact Itoa_ne_empty _

/-- Witness of the amended C9: the never-seen key "10001", the provider's answer cannot be
read. -/
theorem fallback_without_cache_witness :
    (_Validate "10001").2 = true
    ∧ ({} : State).CACHE "10001" = none
    ∧ _Pull (readErrorEnv 1700000000)
        (hotConfigUpdate (readErrorEnv 1700000000) {}).API_KEY "10001" = some ({}, false)
    ∧ ∃ out, Latest (readErrorEnv 1700000000) {} "10001" = some out
      ∧ out.ret.temp = "" ∧ out.ret.humidity = "" ∧ out.ret.windSpeed = ""
      ∧ out.ret.error = ""
      ∧ out.ret.dataAgeSeconds
          = (_PopulateReturn {} "" (readErrorEnv 1700000000).nowPopulateReturn).dataAgeSeconds
      ∧ out.ret.dataAgeSeconds ≠ "" :=
  ⟨by decide, by decide, by decide,
    fallback_without_cache (readErrorEnv 1700000000) {} "10001" (by decide) (by decide)
      ⟨{}, by decide⟩⟩

/-- C10 (successful fetch), evaluated on the code.  The key "90210" holds a snapshot 1741
seconds old, so no fresh entry, and the provider is reachable: a fetch would succeed with a
snapshot stamped 1700001741.  `Latest` makes no request (the trace is empty), returns the old
fields and leaves the old snapshot in the cache. -/
theorem stale_entry_not_refreshed :
    (_Validate "90210").2 = true
    ∧ ¬ isFresh (sampleEntry 1700000000) 1700001741
    ∧ _Pull (reachableEnv 1700001741) "809f761fd91b3990cdc45262b01aa174" "90210"
        = some ({ temp := "289.150000", humidity := "45", windSpeed := "3.600000",
                  timestamp := 1700001741 }, true)
    ∧ (Latest (reachableEnv 1700001741) (stateWith "90210" (sampleEntry 1700000000)) "90210").map
        (fun o => (o.ret, o.state.CACHE "90210", o.trace))
      = some ({ temp := "280.000000", humidity := "50", windSpeed := "1.000000",
                dataAgeSeconds := "-1741", error := "" },
              some (sampleEntry 1700000000), []) := by
  decide

/-- The success path of the fetch: for every valid key for which `Latest` runs the fetch (no
entry, or an entry failing its age test), if `_Pull` succeeds with `s` then `s` is stored under
the key, the result carries the fields of `s` with an empty error, and dataAgeSeconds is "0"
when the clock reading of `_PopulateReturn` equals the stamp of `s`. -/
theorem fetch_success_stores_snapshot (env : Env) (st : State) (zip : String) (s : CacheEntry)
    (hv : (_Validate zip).2 = true)
    (hok : ∀ e, st.CACHE zip = some e → _CalcAge e env.nowCalcAge > CACHE_MAX_VALID_SECONDS)
    (hp : _Pull env (hotConfigUpdate env st).API_KEY zip = some (s, true)) :
    ∃ out, Latest env st zip = some out
      ∧ out.state.CACHE zip = some s
      ∧ out.ret.temp = s.temp ∧ out.ret.humidity = s.humidity
      ∧ out.ret.windSpeed = s.windSpeed ∧ out.ret.error = ""
      ∧ (env.nowPopulateReturn = s.timestamp → out.ret.dataAgeSeconds = "0") := by
  refine ⟨_, Latest_fetch_ok env st zip s hv hok hp, ?_, rfl, rfl, rfl, rfl, ?_⟩
  · simp
  · intro hclock
    simp only [_PopulateReturn, hclock, sub_self]
    decide


/-! ## The rate limiter -/

/-- Pruning drops a prefix of entries more than 61 seconds old and stops at the first entry
that is not, for a list whose ages `now - e` are computed without overflow. -/
theorem prunePullTimes_prefix (now : Int) (l : List Int)
    (hl : ∀ e ∈ l, -2 ^ 63 ≤ now - e ∧ now - e < 2 ^ 63) :
    ∃ dropped, l = dropped ++ prunePullTimes now l
      ∧ (∀ e ∈ dropped, now - e > RATE_LIMIT_TRACKING_MAX_SECS)
      ∧ (∀ oldest rest, prunePullTimes now l = oldest :: rest →
          now - oldest ≤ RATE_LIMIT_TRACKING_MAX_SECS) := by
  induction l with
  | nil =>
    refine ⟨[], rfl, ?_, ?_⟩
    · intro e he; cases he
    · intro o r h; simp [prunePullTimes] at h
  | cons a l ih =>
    have ha := hl a (List.mem_cons_self _ _)
    have hw : wrapInt64 (now - a) = now - a := wrapInt64_eq_self _ ha.1 ha.2
    by_cases hold : now - a > RATE_LIMIT_TRACKING_MAX_SECS
    · obtain ⟨d, hd, hdrop, hhead⟩ := ih (fun e he => hl e (List.mem_cons_of_mem _ he))
      have hp : prunePullTimes now (a :: l) = prunePullTimes now l := by
        rw [prunePullTimes, hw, if_pos hold]
      refine ⟨a :: d, ?_, ?_, ?_⟩
      · rw [hp, List.cons_append, ← hd]
      · intro e he
        rcases List.mem_cons.mp he with h | h
        · rw [h]; exact hold
        · exact hdrop e h
      · intro o r h
        rw [hp] at h
        exact hhead o r h
    · have hp : prunePullTimes now (a :: l) = a :: l := by
        rw [prunePullTimes, hw, if_neg hold]
      refine ⟨[], ?_, ?_, ?_⟩
      · rw [hp]; rfl
      · intro e he; cases he
      · intro o r h
        rw [hp] at h
        cases h
        exact not_lt.mp hold

/-- The early return of `_WaitIfNecessary`: fewer than 20 entries after pruning. -/
theorem WaitIfNecessary_under_limit (now : Int) (l : List Int)
    (h : ((prunePullTimes now l).length : Int) < RATE_LIMIT_MAX_PULLS_MINUTE) :
    _WaitIfNecessary now l = { pullTimes := prunePullTimes now l ++ [now], sleep := none } := by
  unfold _WaitIfNecessary
  simp only []
  rw [dif_pos h]

/-- The wait branch of `_WaitIfNecessary`: 20 entries or more after pruning. -/
theorem WaitIfNecessary_at_limit (now : Int) (l : List Int) (oldest : Int) (rest : List Int)
    (hp : prunePullTimes now l = oldest :: rest)
    (h : ¬ ((prunePullTimes now l).length : Int) < RATE_LIMIT_MAX_PULLS_MINUTE) :
    _WaitIfNecessary now l =
      { pullTimes := oldest :: rest,
        sleep := some (wrapInt64 (wrapInt64 (RATE_LIMIT_TRACKING_MAX_SECS
                    - wrapInt64 (now - oldest)) * 1000000000)) } := by
  unfold _WaitIfNecessary
  simp only []
  rw [dif_neg h]
  simp [hp]

/-- One admission preserves the shape of the limiter: on an ascending list of at most 20
pull times, none later than `now`, the call leaves an ascending list of at most 20 pull times,
none later than `now` and none more than 61 seconds old, and a sleep, if any, lasts a whole
number of seconds between 0 and 61. -/
theorem WaitIfNecessary_step (now : Int) (h0 : 0 ≤ now) (hnow : now < 2 ^ 63) (l : List Int)
    (hsorted : l.Pairwise (fun a b => a ≤ b)) (hl : ∀ e ∈ l, 0 ≤ e ∧ e ≤ now)
    (hlen : l.length ≤ 20) :
    (_WaitIfNecessary now l).pullTimes.Pairwise (fun a b => a ≤ b)
    ∧ (∀ e ∈ (_WaitIfNecessary now l).pullTimes,
        0 ≤ e ∧ e ≤ now ∧ now - e ≤ RATE_LIMIT_TRACKING_MAX_SECS)
    ∧ (_WaitIfNecessary now l).pullTimes.length ≤ 20
    ∧ (∀ d, (_WaitIfNecessary now l).sleep = some d →
        ∃ secs : Int, 0 ≤ secs ∧ secs ≤ RATE_LIMIT_TRACKING_MAX_SECS
          ∧ d = secs * 1000000000) := by
  obtain ⟨dropped, hd, _, hhead⟩ := prunePullTimes_prefix now l (fun e he => by
    have := hl e he
    constructor <;> omega)
  have hps : (prunePullTimes now l).Pairwise (fun a b => a ≤ b) := by
    rw [hd] at hsorted
    exact (List.pairwise_append.mp hsorted).2.1
  have hmem : ∀ e ∈ prunePullTimes now l, e ∈ l := by
    intro e he
    rw [hd]
    exact List.mem_append_right _ he
  have hplen : (prunePullTimes now l).length ≤ l.length := by
    have := congrArg List.length hd
    rw [List.length_append] at this
    omega
  have hage : ∀ e ∈ prunePullTimes now l,
      0 ≤ e ∧ e ≤ now ∧ now - e ≤ RATE_LIMIT_TRACKING_MAX_SECS := by
    intro e he
    refine ⟨(hl e (hmem e he)).1, (hl e (hmem e he)).2, ?_⟩
    cases hp : prunePullTimes now l with
    | nil => rw [hp] at he; cases he
    | cons o r =>
      have ho := hhead o r hp
      rw [hp] at he hps
      rcases List.mem_cons.mp he with h | h
      · rw [h]; exact ho
      · have := (List.pairwise_cons.mp hps).1 e h
        omega
  by_cases h : ((prunePullTimes now l).length : Int) < RATE_LIMIT_MAX_PULLS_MINUTE
  · rw [WaitIfNecessary_under_limit now l h]
    refine ⟨?_, ?_, ?_, ?_⟩
    · apply List.pairwise_append.mpr
      refine ⟨hps, List.pairwise_singleton _ _, ?_⟩
      intro a ha b hb
      rw [List.mem_singleton] at hb
      rw [hb]
      exact (hage a ha).2.1
    · intro e he
      rcases List.mem_append.mp he with h1 | h1
      · exact hage e h1
      · rw [List.mem_singleton] at h1
        rw [h1]
        unfold RATE_LIMIT_TRACKING_MAX_SECS
        omega
    · unfold RATE_LIMIT_MAX_PULLS_MINUTE at h
      rw [List.length_append, List.length_singleton]
      omega
    · intro d hd'
      cases hd'
  · cases hp : prunePullTimes now l with
    | nil =>
      exfalso
      apply h
      rw [hp]
      decide
    | cons o r =>
      rw [WaitIfNecessary_at_limit now l o r hp h]
      rw [hp] at hps hage hplen
      refine ⟨hps, hage, le_trans hplen hlen, ?_⟩
      intro d hd'
      have ho := hage o (List.mem_cons_self _ _)
      unfold RATE_LIMIT_TRACKING_MAX_SECS at ho hd' ⊢
      have e1 : wrapInt64 (now - o) = now - o := wrapInt64_eq_self _ (by omega) (by omega)
      have e2 : wrapInt64 (61 - (now - o)) = 61 - (now - o) :=
        wrapInt64_eq_self _ (by omega) (by omega)
      have e3 : wrapInt64 ((61 - (now - o)) * 1000000000) = (61 - (now - o)) * 1000000000 :=
        wrapInt64_eq_self _ (by omega) (by omega)
      simp only [Option.some.injEq] at hd'
      rw [e1, e2, e3] at hd'
      exact ⟨61 - (now - o), by omega, by omega, hd'.symm⟩

theorem limiterAfter_append (calls : List Int) (now : Int) : ∀ l,
    limiterAfter (calls ++ [now]) l = (_WaitIfNecessary now (limiterAfter calls l)).pullTimes := by
  induction calls with
  | nil => intro l; rfl
  | cons c cs ih =>
    intro l
    simp only [List.cons_append, limiterAfter]
    exact ih _

/-- The shape of the limiter is kept along a run with a non-decreasing clock: the list stays
ascending, has at most 20 entries, and holds no time after the last clock reading. -/
theorem limiterAfter_shape (calls : List Int) : ∀ (l : List Int) (bound upper : Int),
    l.Pairwise (fun a b => a ≤ b) → (∀ e ∈ l, 0 ≤ e ∧ e ≤ bound) → l.length ≤ 20 →
    0 ≤ bound → bound ≤ upper →
    calls.Pairwise (fun a b => a ≤ b) →
    (∀ c ∈ calls, bound ≤ c ∧ c ≤ upper ∧ c < 2 ^ 63) →
    (limiterAfter calls l).Pairwise (fun a b => a ≤ b)
    ∧ (∀ e ∈ limiterAfter calls l, 0 ≤ e ∧ e ≤ upper)
    ∧ (limiterAfter calls l).length ≤ 20 := by
  induction calls with
  | nil =>
    intro l bound upper hs hl hlen _ hbu _ _
    exact ⟨hs, fun e he => ⟨(hl e he).1, le_trans (hl e he).2 hbu⟩, hlen⟩
  | cons c cs ih =>
    intro l bound upper hs hl hlen hb0 _ hcalls hc
    have hcb := hc c (List.mem_cons_self _ _)
    have hstep := WaitIfNecessary_step c (le_trans hb0 hcb.1) hcb.2.2 l hs
      (fun e he => ⟨(hl e he).1, le_trans (hl e he).2 hcb.1⟩) hlen
    obtain ⟨hs', hl', hlen', _⟩ := hstep
    rw [limiterAfter]
    apply ih _ c upper hs' (fun e he => ⟨(hl' e he).1, (hl' e he).2.1⟩) hlen'
      (le_trans hb0 hcb.1) hcb.2.1 (List.pairwise_cons.mp hcalls).2
    intro c' hc'
    exact ⟨(List.pairwise_cons.mp hcalls).1 c' hc', (hc c' (List.mem_cons_of_mem _ hc')).2⟩

/-- The limiter reached from the empty list by calls at non-decreasing epoch times `calls`,
seen from a later time `now`. -/
theorem limiterAfter_reachable (calls : List Int) (now : Int)
    (hclock : (calls ++ [now]).Pairwise (fun a b => a ≤ b))
    (hepoch : ∀ t ∈ calls ++ [now], isEpochSecs t) :
    (limiterAfter calls []).Pairwise (fun a b => a ≤ b)
    ∧ (∀ e ∈ limiterAfter calls [], 0 ≤ e ∧ e ≤ now)
    ∧ (limiterAfter calls []).length ≤ 20 := by
  have hp := List.pairwise_append.mp hclock
  have hnow := hepoch now (List.mem_append_right _ (List.mem_singleton_self _))
  apply limiterAfter_shape calls [] 0 now List.Pairwise.nil
    (fun e he => by cases he) (by simp) (le_refl 0) hnow.1 hp.1
  intro c hc
  have hce := hepoch c (List.mem_append_left _ hc)
  exact ⟨hce.1, hp.2.2 c hc now (List.mem_singleton_self _), hce.2⟩

/-- C12 (limiter state invariant).  For every run of `_WaitIfNecessary` from the empty limiter
at non-decreasing clock readings, immediately after the call made at time `now` the list of
pull times has at most `RATE_LIMIT_MAX_PULLS_MINUTE` (20) entries and every entry `e` satisfies
`now - e <= RATE_LIMIT_TRACKING_MAX_SECS` (61). -/
theorem limiter_state_invariant (calls : List Int) (now : Int)
    (hclock : (calls ++ [now]).Pairwise (fun a b => a ≤ b))
    (hepoch : ∀ t ∈ calls ++ [now], isEpochSecs t) :
    ((limiterAfter (calls ++ [now]) []).length : Int) ≤ RATE_LIMIT_MAX_PULLS_MINUTE
    ∧ ∀ e ∈ limiterAfter (calls ++ [now]) [], now - e ≤ RATE_LIMIT_TRACKING_MAX_SECS := by
  obtain ⟨hs, hl, hlen⟩ := limiterAfter_reachable calls now hclock hepoch
  have hnow := hepoch now (List.mem_append_right _ (List.mem_singleton_self _))
  obtain ⟨_, hl', hlen', _⟩ := WaitIfNecessary_step now hnow.1 hnow.2 _ hs hl hlen
  rw [limiterAfter_append]
  refine ⟨?_, fun e he => (hl' e he).2.2⟩
  unfold RATE_LIMIT_MAX_PULLS_MINUTE
  omega

/-- Witness of C12: twenty-five calls, five at each of the times 0, 30, 60, 90 and 120, seen
after a call at time 130. -/
theorem limiter_state_invariant_witness :
    ((List.replicate 5 0 ++ List.replicate 5 30 ++ List.replicate 5 60 ++ List.replicate 5 90
        ++ List.replicate 5 120) ++ [130]).Pairwise (fun a b => a ≤ b)
    ∧ ((limiterAfter ((List.replicate 5 0 ++ List.replicate 5 30 ++ List.replicate 5 60
          ++ List.replicate 5 90 ++ List.replicate 5 120) ++ [130]) []).length : Int)
        ≤ RATE_LIMIT_MAX_PULLS_MINUTE
    ∧ ∀ e ∈ limiterAfter ((List.replicate 5 0 ++ List.replicate 5 30 ++ List.replicate 5 60
          ++ List.replicate 5 90 ++ List.replicate 5 120) ++ [130]) [],
        130 - e ≤ RATE_LIMIT_TRACKING_MAX_SECS :=
  ⟨by decide,
    limiter_state_invariant (List.replicate 5 0 ++ List.replicate 5 30 ++ List.replicate 5 60
        ++ List.replicate 5 90 ++ List.replicate 5 120) 130 (by decide) (by decide)⟩

/-- C14 (bounded wait).  For every limiter state reached from the empty limiter by calls of
`_WaitIfNecessary` at non-decreasing clock readings, a call at a later reading `now` sleeps
between 0 and `RATE_LIMIT_TRACKING_MAX_SECS` (61) seconds: the duration passed to `time.Sleep`,
when it is called, is a whole number of seconds in that range and is never negative. -/
theorem wait_is_bounded (calls : List Int) (now : Int)
    (hclock : (calls ++ [now]).Pairwise (fun a b => a ≤ b))
    (hepoch : ∀ t ∈ calls ++ [now], isEpochSecs t) :
    0 ≤ sleptSeconds (_WaitIfNecessary now (limiterAfter calls []))
    ∧ sleptSeconds (_WaitIfNecessary now (limiterAfter calls [])) ≤ RATE_LIMIT_TRACKING_MAX_SECS
    ∧ ∀ d, (_WaitIfNecessary now (limiterAfter calls [])).sleep = some d →
        ∃ secs : Int, 0 ≤ secs ∧ secs ≤ RATE_LIMIT_TRACKING_MAX_SECS ∧ d = secs * 1000000000 := by
  obtain ⟨hs, hl, hlen⟩ := limiterAfter_reachable calls now hclock hepoch
  have hnow := hepoch now (List.mem_append_right _ (List.mem_singleton_self _))
  obtain ⟨_, _, _, hsleep⟩ := WaitIfNecessary_step now hnow.1 hnow.2 _ hs hl hlen
  refine ⟨?_, ?_, hsleep⟩
  · unfold sleptSeconds
    cases hw : (_WaitIfNecessary now (limiterAfter calls [])).sleep with
    | none => exact le_refl 0
    | some d =>
      obtain ⟨secs, h0, _, hd⟩ := hsleep d hw
      simp only []
      split
      · exact le_refl 0
      · rw [hd]; omega
  · unfold sleptSeconds
    cases hw : (_WaitIfNecessary now (limiterAfter calls [])).sleep with
    | none => decide
    | some d =>
      obtain ⟨secs, _, h1, hd⟩ := hsleep d hw
      unfold RATE_LIMIT_TRACKING_MAX_SECS at h1 ⊢
      simp only []
      split
      · decide
      · rw [hd]; omega

set_option maxRecDepth 8000 in
/-- Witness of C14: twenty calls at time 100, then a call at time 120, which sleeps. -/
theorem wait_is_bounded_witness :
    (List.replicate 20 100 ++ [120]).Pairwise (fun a b => a ≤ b)
    ∧ (_WaitIfNecessary 120 (limiterAfter (List.replicate 20 100) [])).sleep
        = some 41000000000
    ∧ 0 ≤ sleptSeconds (_WaitIfNecessary 120 (limiterAfter (List.replicate 20 100) []))
    ∧ sleptSeconds (_WaitIfNecessary 120 (limiterAfter (List.replicate 20 100) []))
        ≤ RATE_LIMIT_TRACKING_MAX_SECS
    ∧ ∀ d, (_WaitIfNecessary 120 (limiterAfter (List.replicate 20 100) [])).sleep = some d →
        ∃ secs : Int, 0 ≤ secs ∧ secs ≤ RATE_LIMIT_TRACKING_MAX_SECS ∧ d = secs * 1000000000 :=
  ⟨by decide, by rfl, wait_is_bounded (List.replicate 20 100) 120 (by decide) (by decide)⟩

/-- Seconds slept for a non-negative whole number of seconds passed to `time.Sleep`. -/
theorem sleptSeconds_of_secs (l : List Int) (secs : Int) (h : 0 ≤ secs) :
    sleptSeconds { pullTimes := l, sleep := some (secs * 1000000000) } = secs := by
  unfold sleptSeconds
  simp only []
  split
  · omega
  · omega

/-- The two branches of `_WaitIfNecessary` after pruning, for a limiter whose entries are not
so far from `now` that the `int64` arithmetic of the function overflows. -/
theorem WaitIfNecessary_decision (now : Int) (l : List Int)
    (hl : ∀ e ∈ l, -9000000000 ≤ now - e ∧ now - e < 2 ^ 63) :
    (∃ dropped, l = dropped ++ prunePullTimes now l
      ∧ (∀ e ∈ dropped, now - e > RATE_LIMIT_TRACKING_MAX_SECS)
      ∧ (∀ oldest rest, prunePullTimes now l = oldest :: rest →
          now - oldest ≤ RATE_LIMIT_TRACKING_MAX_SECS))
    ∧ (((prunePullTimes now l).length : Int) < RATE_LIMIT_MAX_PULLS_MINUTE →
        _WaitIfNecessary now l = { pullTimes := prunePullTimes now l ++ [now], sleep := none }
        ∧ sleptSeconds (_WaitIfNecessary now l) = 0)
    ∧ (¬ ((prunePullTimes now l).length : Int) < RATE_LIMIT_MAX_PULLS_MINUTE →
        ∃ oldest rest, prunePullTimes now l = oldest :: rest
          ∧ _WaitIfNecessary now l =
              { pullTimes := prunePullTimes now l,
                sleep := some ((RATE_LIMIT_TRACKING_MAX_SECS - (now - oldest)) * 1000000000) }
          ∧ sleptSeconds (_WaitIfNecessary now l)
              = RATE_LIMIT_TRACKING_MAX_SECS - (now - oldest)) := by
  have hpre := prunePullTimes_prefix now l (fun e he => ⟨by have := hl e he; omega, (hl e he).2⟩)
  refine ⟨hpre, ?_, ?_⟩
  · intro h
    rw [WaitIfNecessary_under_limit now l h]
    exact ⟨rfl, rfl⟩
  · intro h
    obtain ⟨dropped, hd, _, hhead⟩ := hpre
    cases hp : prunePullTimes now l with
    | nil =>
      exfalso
      apply h
      rw [hp]
      decide
    | cons o r =>
      have hmem : o ∈ l := by
        rw [hd, hp]
        exact List.mem_append_right _ (List.mem_cons_self _ _)
      have ho := hl o hmem
      have hage := hhead o r hp
      unfold RATE_LIMIT_TRACKING_MAX_SECS at hage
      have e1 : wrapInt64 (now - o) = now - o := wrapInt64_eq_self _ (by omega) (by omega)
      have e2 : wrapInt64 (61 - (now - o)) = 61 - (now - o) :=
        wrapInt64_eq_self _ (by omega) (by omega)
      have e3 : wrapInt64 ((61 - (now - o)) * 1000000000) = (61 - (now - o)) * 1000000000 :=
        wrapInt64_eq_self _ (by omega) (by omega)
      have hw : _WaitIfNecessary now l =
          { pullTimes := o :: r,
            sleep := some ((RATE_LIMIT_TRACKING_MAX_SECS - (now - o)) * 1000000000) } := by
        rw [WaitIfNecessary_at_limit now l o r hp h]
        unfold RATE_LIMIT_TRACKING_MAX_SECS
        rw [e1, e2, e3]
      refine ⟨o, r, rfl, hw, ?_⟩
      rw [hw]
      apply sleptSeconds_of_secs
      unfold RATE_LIMIT_TRACKING_MAX_SECS
      omega

/-- Calls whose times all lie within one window of 61 seconds, at most 20 with the entries
already recorded, are all recorded and none is pruned. -/
theorem limiterAfter_within_window (cs : List Int) : ∀ (l : List Int) (lo hi : Int),
    (∀ e ∈ l ++ cs, lo ≤ e ∧ e ≤ hi) → hi - lo ≤ 61 → (l ++ cs).length ≤ 20 →
    limiterAfter cs l = l ++ cs := by
  induction cs with
  | nil => intro l lo hi _ _ _; simp [limiterAfter]
  | cons c cs ih =>
    intro l lo hi hmem hspan hlen
    have hc := hmem c (List.mem_append_right _ (List.mem_cons_self _ _))
    have hprune : prunePullTimes c l = l := by
      cases l with
      | nil => rfl
      | cons a t =>
        have ha := hmem a (List.mem_append_left _ (List.mem_cons_self _ _))
        rw [prunePullTimes, wrapInt64_eq_self _ (by omega) (by omega), if_neg]
        unfold RATE_LIMIT_TRACKING_MAX_SECS
        omega
    have hlt : ((prunePullTimes c l).length : Int) < RATE_LIMIT_MAX_PULLS_MINUTE := by
      rw [hprune]
      unfold RATE_LIMIT_MAX_PULLS_MINUTE
      rw [List.length_append, List.length_cons] at hlen
      omega
    rw [limiterAfter, WaitIfNecessary_under_limit c l hlt, hprune]
    simp only []
    rw [ih (l ++ [c]) lo hi (by simpa using hmem) hspan (by simpa using hlen)]
    simp

/-- C13 (admission decision).  First part: for every time `now` and every limiter state whose
ages `now - e` stay within the range of the function's `int64` arithmetic,
`_WaitIfNecessary` prunes from the front the entries older than 61 seconds and then either
(fewer than 20 entries left) appends `now` and does not sleep, or (20 entries or more left)
sleeps exactly `61 - (now - oldest)` seconds and leaves the pruned list as it is, recording
nothing for this call.  Second part: from the empty limiter, 20 calls at times
`t1 <= ... <= t20` followed by a call at time `t` with `t - t1 <= 61` leave the 20 times
recorded and make the 21st call sleep `61 - (t - t1)` seconds. -/
theorem admission_decision :
    (∀ (now : Int) (l : List Int),
      (∀ e ∈ l, -9000000000 ≤ now - e ∧ now - e < 2 ^ 63) →
      (∃ dropped, l = dropped ++ prunePullTimes now l
        ∧ (∀ e ∈ dropped, now - e > RATE_LIMIT_TRACKING_MAX_SECS)
        ∧ (∀ oldest rest, prunePullTimes now l = oldest :: rest →
            now - oldest ≤ RATE_LIMIT_TRACKING_MAX_SECS))
      ∧ (((prunePullTimes now l).length : Int) < RATE_LIMIT_MAX_PULLS_MINUTE →
          _WaitIfNecessary now l = { pullTimes := prunePullTimes now l ++ [now], sleep := none }
          ∧ sleptSeconds (_WaitIfNecessary now l) = 0)
      ∧ (¬ ((prunePullTimes now l).length : Int) < RATE_LIMIT_MAX_PULLS_MINUTE →
          ∃ oldest rest, prunePullTimes now l = oldest :: rest
            ∧ _WaitIfNecessary now l =
                { pullTimes := prunePullTimes now l,
                  sleep := some ((RATE_LIMIT_TRACKING_MAX_SECS - (now - oldest)) * 1000000000) }
            ∧ sleptSeconds (_WaitIfNecessary now l)
                = RATE_LIMIT_TRACKING_MAX_SECS - (now - oldest)))
    ∧ (∀ (t1 : Int) (rest : List Int) (t : Int),
      rest.length = 19 → (t1 :: rest ++ [t]).Pairwise (fun a b => a ≤ b) →
      t - t1 ≤ RATE_LIMIT_TRACKING_MAX_SECS →
      limiterAfter (t1 :: rest) [] = t1 :: rest
      ∧ _WaitIfNecessary t (limiterAfter (t1 :: rest) []) =
          { pullTimes := t1 :: rest,
            sleep := some ((RATE_LIMIT_TRACKING_MAX_SECS - (t - t1)) * 1000000000) }
      ∧ sleptSeconds (_WaitIfNecessary t (limiterAfter (t1 :: rest) []))
          = RATE_LIMIT_TRACKING_MAX_SECS - (t - t1)) := by
  refine ⟨WaitIfNecessary_decision, ?_⟩
  intro t1 rest t hlen hclock hspan
  unfold RATE_LIMIT_TRACKING_MAX_SECS at hspan
  have hp := List.pairwise_append.mp hclock
  have hlo : ∀ e ∈ t1 :: rest, t1 ≤ e := by
    intro e he
    rcases List.mem_cons.mp he with h | h
    · rw [h]
    · exact (List.pairwise_cons.mp hp.1).1 e h
  have hhi : ∀ e ∈ t1 :: rest, e ≤ t := fun e he => hp.2.2 e he t (List.mem_singleton_self _)
  have hrun : limiterAfter (t1 :: rest) [] = t1 :: rest := by
    have := limiterAfter_within_window (t1 :: rest) [] t1 t
      (fun e he => by
        rw [List.nil_append] at he
        exact ⟨hlo e he, hhi e he⟩)
      hspan (by simp [hlen])
    simpa using this
  have ht1 := hhi t1 (List.mem_cons_self _ _)
  have hprune : prunePullTimes t (t1 :: rest) = t1 :: rest := by
    rw [prunePullTimes, wrapInt64_eq_self _ (by omega) (by omega), if_neg]
    unfold RATE_LIMIT_TRACKING_MAX_SECS
    omega
  have hfull : ¬ ((prunePullTimes t (t1 :: rest)).length : Int)
      < RATE_LIMIT_MAX_PULLS_MINUTE := by
    rw [hprune, List.length_cons, hlen]
    decide
  have hdec := (WaitIfNecessary_decision t (t1 :: rest) (fun e he => by
    have h1 := hlo e he
    have h2 := hhi e he
    constructor <;> omega)).2.2 hfull
  obtain ⟨o, r, hor, hw, hs⟩ := hdec
  rw [hprune] at hor hw
  cases hor
  rw [hrun]
  exact ⟨rfl, hw, hs⟩

/-- Witness of C13: a limiter holding an entry 70 seconds old and 20 entries 20 seconds old,
and the run of 20 calls at time 100 followed by a call at time 120. -/
theorem admission_decision_witness :
    ((∃ dropped, 50 :: List.replicate 20 100
          = dropped ++ prunePullTimes 120 (50 :: List.replicate 20 100)
        ∧ (∀ e ∈ dropped, 120 - e > RATE_LIMIT_TRACKING_MAX_SECS)
        ∧ (∀ oldest rest, prunePullTimes 120 (50 :: List.replicate 20 100) = oldest :: rest →
            120 - oldest ≤ RATE_LIMIT_TRACKING_MAX_SECS))
      ∧ (((prunePullTimes 120 (50 :: List.replicate 20 100)).length : Int)
            < RATE_LIMIT_MAX_PULLS_MINUTE →
          _WaitIfNecessary 120 (50 :: List.replicate 20 100)
            = { pullTimes := prunePullTimes 120 (50 :: List.replicate 20 100) ++ [120],
                sleep := none }
          ∧ sleptSeconds (_WaitIfNecessary 120 (50 :: List.replicate 20 100)) = 0)
      ∧ (¬ ((prunePullTimes 120 (50 :: List.replicate 20 100)).length : Int)
            < RATE_LIMIT_MAX_PULLS_MINUTE →
          ∃ oldest rest, prunePullTimes 120 (50 :: List.replicate 20 100) = oldest :: rest
            ∧ _WaitIfNecessary 120 (50 :: List.replicate 20 100) =
                { pullTimes := prunePullTimes 120 (50 :: List.replicate 20 100),
                  sleep := some ((RATE_LIMIT_TRACKING_MAX_SECS - (120 - oldest)) * 1000000000) }
            ∧ sleptSeconds (_WaitIfNecessary 120 (50 :: List.replicate 20 100))
                = RATE_LIMIT_TRACKING_MAX_SECS - (120 - oldest)))
    ∧ (limiterAfter (100 :: List.replicate 19 100) [] = 100 :: List.replicate 19 100
      ∧ _WaitIfNecessary 120 (limiterAfter (100 :: List.replicate 19 100) []) =
          { pullTimes := 100 :: List.replicate 19 100,
            sleep := some ((RATE_LIMIT_TRACKING_MAX_SECS - (120 - 100)) * 1000000000) }
      ∧ sleptSeconds (_WaitIfNecessary 120 (limiterAfter (100 :: List.replicate 19 100) []))
          = RATE_LIMIT_TRACKING_MAX_SECS - (120 - 100)) :=
  ⟨admission_decision.1 120 (50 :: List.replicate 20 100) (by decide),
    admission_decision.2 100 (List.replicate 19 100) 120 (by decide) (by decide) (by decide)⟩

/-! ## All the paths of `Latest` -/

/-- The five ways a call of `Latest` can go: rejected input, entry served from the cache,
panic in `_Pull`, failed fetch, successful fetch. -/
theorem Latest_cases (env : Env) (st : State) (zip : String) :
    ((_Validate zip).2 = false
      ∧ Latest env st zip =
          some { ret := { error := "Invalid zip(" ++ zip
                            ++ "), accepted values are 00000 to 99999" },
                 state := hotConfigUpdate env st, trace := [] })
    ∨ ((_Validate zip).2 = true
      ∧ ∃ e, st.CACHE zip = some e ∧ _CalcAge e env.nowCalcAge ≤ CACHE_MAX_VALID_SECONDS
        ∧ Latest env st zip =
            some { ret := _PopulateReturn e "" env.nowPopulateReturn,
                   state := hotConfigUpdate env st, trace := [] })
    ∨ ((_Validate zip).2 = true
      ∧ _Pull env (hotConfigUpdate env st).API_KEY zip = none
      ∧ Latest env st zip = none)
    ∨ ((_Validate zip).2 = true
      ∧ ∃ x, _Pull env (hotConfigUpdate env st).API_KEY zip = some (x, false)
        ∧ Latest env st zip =
            some { ret := _PopulateReturn ((st.CACHE zip).getD {}) "" env.nowPopulateReturn,
                   state := { hotConfigUpdate env st with
                              RATE_LIMITER := { pullTimes := (_WaitIfNecessary
                                env.nowWaitIfNecessary st.RATE_LIMITER.pullTimes).pullTimes } },
                   trace := sleepEvents (_WaitIfNecessary env.nowWaitIfNecessary
                                st.RATE_LIMITER.pullTimes)
                              ++ [Event.httpGet (pullUrl zip (hotConfigUpdate env st).API_KEY)] })
    ∨ ((_Validate zip).2 = true
      ∧ ∃ s, _Pull env (hotConfigUpdate env st).API_KEY zip = some (s, true)
        ∧ Latest env st zip =
            some { ret := _PopulateReturn s "" env.nowPopulateReturn,
                   state := { hotConfigUpdate env st with
                              CACHE := fun k => if k = zip then some s else st.CACHE k,
                              RATE_LIMITER := { pullTimes := (_WaitIfNecessary
                                env.nowWaitIfNecessary st.RATE_LIMITER.pullTimes).pullTimes } },
                   trace := sleepEvents (_WaitIfNecessary env.nowWaitIfNecessary
                                st.RATE_LIMITER.pullTimes)
                              ++ [Event.httpGet (pullUrl zip (hotConfigUpdate env st).API_KEY)] }) := by
  cases hv : (_Validate zip).2 with
  | false => exact Or.inl ⟨rfl, Latest_invalid env st zip hv⟩
  | true =>
    right
    by_cases hok : ∀ e, st.CACHE zip = some e →
        _CalcAge e env.nowCalcAge > CACHE_MAX_VALID_SECONDS
    · right
      cases hp : _Pull env (hotConfigUpdate env st).API_KEY zip with
      | none => exact Or.inl ⟨rfl, rfl, Latest_fetch_panic env st zip hv hok hp⟩
      | some r =>
        obtain ⟨x, pulled⟩ := r
        right
        cases pulled with
        | false => exact Or.inl ⟨rfl, x, rfl, Latest_fetch_failed env st zip x hv hok hp⟩
        | true => exact Or.inr ⟨rfl, x, rfl, Latest_fetch_ok env st zip x hv hok hp⟩
    · left
      push_neg at hok
      obtain ⟨e, he, hage⟩ := hok
      exact ⟨rfl, e, he, hage, Latest_cache_hit env st zip e hv he hage⟩

/-- A snapshot returned by a successful `_Pull` is stamped with the clock reading of `_Pull`. -/
theorem Pull_ok_timestamp (env : Env) (key zip : String) (s : CacheEntry)
    (h : _Pull env key zip = some (s, true)) : s.timestamp = env.nowPull := by
  unfold _Pull at h
  simp only [] at h
  split at h
  · cases h
  · split at h
    · split at h
      · cases h
      · cases h; rfl
    · cases h

/-- The cache after a call that returns: unchanged, or changed at the requested key only, by
a successful fetch. -/
theorem Latest_cache_after (env : Env) (st : State) (zip : String) (out : LatestOut)
    (h : Latest env st zip = some out) :
    out.state.CACHE = st.CACHE
    ∨ ∃ s, (_Validate zip).2 = true
        ∧ _Pull env (hotConfigUpdate env st).API_KEY zip = some (s, true)
        ∧ out.state.CACHE = fun k => if k = zip then some s else st.CACHE k := by
  rcases Latest_cases env st zip with ⟨_, hL⟩ | ⟨_, e, _, _, hL⟩ | ⟨_, _, hL⟩
      | ⟨_, x, _, hL⟩ | ⟨hv, s, hp, hL⟩
  · rw [hL] at h; cases h; exact Or.inl (hotConfigUpdate_CACHE env st)
  · rw [hL] at h; cases h; exact Or.inl (hotConfigUpdate_CACHE env st)
  · rw [hL] at h; cases h
  · rw [hL] at h; cases h; exact Or.inl (hotConfigUpdate_CACHE env st)
  · rw [hL] at h; cases h; exact Or.inr ⟨s, hv, hp, rfl⟩

/-- C11 (cache frame).  A call of `Latest` returns unless `_Pull` panics.  When it returns,
the cache is the cache before the call, or a fetch succeeded and the cache differs from it at
the requested key only, which now holds the fetched snapshot; every key that held an entry
still holds one.  On invalid input, on a hit of a fresh snapshot taken before the call, and
on a fetch that `_Pull` reports as failed, the call returns and the cache is unchanged. -/
theorem cache_changes_only_on_successful_fetch (env : Env) (st : State) (zip : String) :
    ((∃ out, Latest env st zip = some out)
      ∨ (Latest env st zip = none ∧ (_Validate zip).2 = true
          ∧ _Pull env (hotConfigUpdate env st).API_KEY zip = none))
    ∧ (∀ out, Latest env st zip = some out →
        (out.state.CACHE = st.CACHE
          ∨ ∃ s, (_Validate zip).2 = true
              ∧ _Pull env (hotConfigUpdate env st).API_KEY zip = some (s, true)
              ∧ out.state.CACHE = fun k => if k = zip then some s else st.CACHE k)
        ∧ (∀ k, k ≠ zip → out.state.CACHE k = st.CACHE k)
        ∧ (∀ k e, st.CACHE k = some e → ∃ e', out.state.CACHE k = some e'))
    ∧ ((_Validate zip).2 = false →
        ∃ out, Latest env st zip = some out ∧ out.state.CACHE = st.CACHE)
    ∧ (∀ e, (_Validate zip).2 = true → st.CACHE zip = some e →
        isEpochSecs e.timestamp → isEpochSecs env.nowCalcAge →
        e.timestamp ≤ env.nowCalcAge → isFresh e env.nowCalcAge →
        ∃ out, Latest env st zip = some out ∧ out.state.CACHE = st.CACHE)
    ∧ (∀ x, _Pull env (hotConfigUpdate env st).API_KEY zip = some (x, false) →
        ∃ out, Latest env st zip = some out ∧ out.state.CACHE = st.CACHE) := by
  refine ⟨?_, ?_, ?_, ?_, ?_⟩
  · rcases Latest_cases env st zip with ⟨_, hL⟩ | ⟨_, e, _, _, hL⟩ | ⟨hv, hp, hL⟩
        | ⟨_, x, _, hL⟩ | ⟨_, s, _, hL⟩
    · exact Or.inl ⟨_, hL⟩
    · exact Or.inl ⟨_, hL⟩
    · exact Or.inr ⟨hL, hv, hp⟩
    · exact Or.inl ⟨_, hL⟩
    · exact Or.inl ⟨_, hL⟩
  · intro out h
    have hc := Latest_cache_after env st zip out h
    refine ⟨hc, ?_, ?_⟩
    · intro k hk
      rcases hc with hsame | ⟨s, _, _, hupd⟩
      · rw [hsame]
      · rw [hupd]; simp [hk]
    · intro k e hke
      rcases hc with hsame | ⟨s, _, _, hupd⟩
      · exact ⟨e, by rw [hsame]; exact hke⟩
      · rw [hupd]
        by_cases hk : k = zip
        · exact ⟨s, by simp [hk]⟩
        · exact ⟨e, by simp [hk, hke]⟩
  · intro hv
    exact ⟨_, Latest_invalid env st zip hv, hotConfigUpdate_CACHE env st⟩
  · intro e hv he hts hnow hpast _
    exact ⟨_, Latest_cache_hit env st zip e hv he (CalcAge_le_of_past e _ hts hnow hpast),
      hotConfigUpdate_CACHE env st⟩
  · intro x hx
    rcases Latest_cases env st zip with ⟨_, hL⟩ | ⟨_, e, _, _, hL⟩ | ⟨_, hp, _⟩
        | ⟨_, y, _, hL⟩ | ⟨_, s, hp, _⟩
    · exact ⟨_, hL, hotConfigUpdate_CACHE env st⟩
    · exact ⟨_, hL, hotConfigUpdate_CACHE env st⟩
    · rw [hp] at hx; cases hx
    · exact ⟨_, hL, hotConfigUpdate_CACHE env st⟩
    · rw [hp] at hx; cases hx

/-- Witness of C11: a failed fetch for the never-seen key "10001" (the body cannot be read)
leaves the cache, which holds a snapshot for "90210", unchanged. -/
theorem cache_changes_only_on_successful_fetch_witness :
    _Pull (readErrorEnv 1700000000)
        (hotConfigUpdate (readErrorEnv 1700000000)
          (stateWith "90210" (sampleEntry 1699999000))).API_KEY "10001" = some ({}, false)
    ∧ ∃ out, Latest (readErrorEnv 1700000000) (stateWith "90210" (sampleEntry 1699999000))
          "10001" = some out
        ∧ out.state.CACHE = (stateWith "90210" (sampleEntry 1699999000)).CACHE :=
  ⟨by decide,
    (cache_changes_only_on_successful_fetch (readErrorEnv 1700000000)
      (stateWith "90210" (sampleEntry 1699999000)) "10001").2.2.2.2 {} (by decide)⟩

/-! ## Runs of `Latest` -/

/-- Along a run whose clock does not go back, the stored timestamps never decrease, provided
no stored timestamp is later than a clock reading still to come. -/
theorem runLatest_timestamps (calls : List (Env × String)) : ∀ st : State,
    (∀ k e, st.CACHE k = some e → ∀ r ∈ clockReadings calls, e.timestamp ≤ r) →
    (clockReadings calls).Pairwise (fun a b => a ≤ b) →
    List.Chain timestampsNotDecreasing st (runLatest calls st) := by
  induction calls with
  | nil => intro st _ _; exact List.Chain.nil
  | cons c rest ih =>
    intro st hinv hclock
    rw [runLatest]
    cases hL : Latest c.1 st c.2 with
    | none => exact List.Chain.nil
    | some out =>
      simp only []
      have hpull : c.1.nowPull ∈ clockReadings (c :: rest) := by
        simp [clockReadings, callReadings]
      have hrest : ∀ r ∈ clockReadings rest, c.1.nowPull ≤ r := by
        intro r hr
        rw [clockReadings] at hclock
        exact (List.pairwise_append.mp hclock).2.2 _ (by simp [callReadings]) r hr
      have hsub : ∀ r ∈ clockReadings rest, r ∈ clockReadings (c :: rest) := by
        intro r hr
        rw [clockReadings]
        exact List.mem_append_right _ hr
      have hc := Latest_cache_after c.1 st c.2 out hL
      apply List.Chain.cons
      · intro k e e' hke hke'
        rcases hc with hsame | ⟨s, _, hp, hupd⟩
        · rw [hsame, hke] at hke'
          cases hke'
          exact le_refl _
        · rw [hupd] at hke'
          by_cases hk : k = c.2
          · simp only [hk, if_true, Option.some.injEq] at hke'
            rw [← hke', Pull_ok_timestamp _ _ _ _ hp]
            exact hinv k e hke _ hpull
          · simp only [hk, if_false] at hke'
            rw [hke] at hke'
            cases hke'
            exact le_refl _
      · apply ih
        · intro k e hke r hr
          rcases hc with hsame | ⟨s, _, hp, hupd⟩
          · rw [hsame] at hke
            exact hinv k e hke r (hsub r hr)
          · rw [hupd] at hke
            by_cases hk : k = c.2
            · simp only [hk, if_true, Option.some.injEq] at hke
              rw [← hke, Pull_ok_timestamp _ _ _ _ hp]
              exact hrest r hr
            · simp only [hk, if_false] at hke
              exact hinv k e hke r (hsub r hr)
        · rw [clockReadings] at hclock
          exact (List.pairwise_append.mp hclock).2.1

/-- C15 (monotone snapshots).  For every sequence of calls of `Latest` with a non-decreasing
clock that starts from an empty cache, from each state of the run to the next the timestamp
stored for any key does not decrease; in particular it does not decrease from one write of a
key to the next. -/
theorem snapshots_monotone (calls : List (Env × String)) (st0 : State)
    (hempty : ∀ k, st0.CACHE k = none)
    (hclock : (clockReadings calls).Pairwise (fun a b => a ≤ b)) :
    List.Chain timestampsNotDecreasing st0 (runLatest calls st0) := by
  apply runLatest_timestamps calls st0 _ hclock
  intro k e hke
  rw [hempty k] at hke
  cases hke

/-- Witness of C15: three calls, for "90210" at 1700000000 and at 1700002000 and for "06883"
at 1700002000, from the empty state. -/
theorem snapshots_monotone_witness :
    (clockReadings [(reachableEnv 1700000000, "90210"), (reachableEnv 1700002000, "90210"),
        (reachableEnv 1700002000, "06883")]).Pairwise (fun a b => a ≤ b)
    ∧ (runLatest [(reachableEnv 1700000000, "90210"), (reachableEnv 1700002000, "90210"),
        (reachableEnv 1700002000, "06883")] {}).length = 3
    ∧ List.Chain timestampsNotDecreasing {}
        (runLatest [(reachableEnv 1700000000, "90210"), (reachableEnv 1700002000, "90210"),
          (reachableEnv 1700002000, "06883")] {}) :=
  ⟨by decide, by decide,
    snapshots_monotone [(reachableEnv 1700000000, "90210"), (reachableEnv 1700002000, "90210"),
      (reachableEnv 1700002000, "06883")] {} (fun _ => rfl) (by decide)⟩

/-! ## The error field and the cache key -/

theorem invalid_message_ne_empty (zip : String) :
    "Invalid zip(" ++ zip ++ "), accepted values are 00000 to 99999" ≠ "" := by
  intro h
  have hl := congrArg String.length h
  simp only [String.length_append] at hl
  have h1 : "Invalid zip(".length = 12 := by decide
  have h2 : "".length = 0 := rfl
  omega

theorem no_data_message_ne_empty (z : String) : "" ≠ "No data for zip " ++ z ++ "\n" := by
  intro h
  have hl := congrArg String.length h
  simp only [String.length_append] at hl
  have h1 : "No data for zip ".length = 16 := by decide
  have h2 : "".length = 0 := rfl
  omega

theorem invalid_message_ne_no_data (zip z : String) :
    "Invalid zip(" ++ zip ++ "), accepted values are 00000 to 99999"
      ≠ "No data for zip " ++ z ++ "\n" := by
  intro h
  have hd := congrArg String.data h
  simp only [String.data_append] at hd
  simp only [List.cons_append, List.cons.injEq] at hd
  exact absurd hd.1 (by decide)

/-- C16 (error flag only for validation).  For every input, every state and every outcome of
the provider: either `Latest` returns, and then the error field of its result is non-empty
exactly when `_Validate` rejects the input and is never a "No data for zip" message; or
`_Pull` panics on an accepted input and there is no result. -/
theorem error_set_only_for_rejected_input (env : Env) (st : State) (zip : String) :
    (∃ out, Latest env st zip = some out
      ∧ (out.ret.error ≠ "" ↔ (_Validate zip).2 = false)
      ∧ ∀ z : String, out.ret.error ≠ "No data for zip " ++ z ++ "\n")
    ∨ (Latest env st zip = none ∧ (_Validate zip).2 = true
        ∧ _Pull env (hotConfigUpdate env st).API_KEY zip = none) := by
  rcases Latest_cases env st zip with ⟨hv, hL⟩ | ⟨hv, e, _, _, hL⟩ | ⟨hv, hp, hL⟩
      | ⟨hv, x, _, hL⟩ | ⟨hv, s, _, hL⟩
  · left
    refine ⟨_, hL, ?_, ?_⟩
    · exact ⟨fun _ => hv, fun _ => invalid_message_ne_empty zip⟩
    · intro z
      exact invalid_message_ne_no_data zip z
  · left
    refine ⟨_, hL, ?_, ?_⟩
    · simp [_PopulateReturn, hv]
    · intro z
      exact no_data_message_ne_empty z
  · exact Or.inr ⟨hL, hv, hp⟩
  · left
    refine ⟨_, hL, ?_, ?_⟩
    · simp [_PopulateReturn, hv]
    · intro z
      exact no_data_message_ne_empty z
  · left
    refine ⟨_, hL, ?_, ?_⟩
    · simp [_PopulateReturn, hv]
    · intro z
      exact no_data_message_ne_empty z

/-- C17 (entries written in the past never expire).  For every accepted key whose cache entry
has a timestamp of at most `now + CACHE_MAX_VALID_SECONDS`, in particular at most `now`,
`Latest` treats the entry as fresh however old it is: it makes no request and does not sleep
(the trace is empty), leaves the limiter and the cache unchanged, and returns the cached
fields with an empty error. -/
theorem past_entry_never_expires (env : Env) (st : State) (zip : String) (e : CacheEntry)
    (hv : (_Validate zip).2 = true) (he : st.CACHE zip = some e)
    (hts : isEpochSecs e.timestamp) (hnow : isEpochSecs env.nowCalcAge)
    (h : e.timestamp ≤ env.nowCalcAge + CACHE_MAX_VALID_SECONDS) :
    ∃ out, Latest env st zip = some out
      ∧ out.trace = [] ∧ out.state.RATE_LIMITER = st.RATE_LIMITER
      ∧ out.state.CACHE = st.CACHE
      ∧ out.ret = _PopulateReturn e "" env.nowPopulateReturn
      ∧ out.ret.temp = e.temp ∧ out.ret.humidity = e.humidity
      ∧ out.ret.windSpeed = e.windSpeed ∧ out.ret.error = "" := by
  have hage : _CalcAge e env.nowCalcAge ≤ CACHE_MAX_VALID_SECONDS := by
    unfold isEpochSecs at hts hnow
    unfold _CalcAge
    rw [wrapInt64_eq_self _ (by omega) (by omega)]
    omega
  exact ⟨_, Latest_cache_hit env st zip e hv he hage, rfl, hotConfigUpdate_RATE_LIMITER env st,
    hotConfigUpdate_CACHE env st, rfl, rfl, rfl, rfl, rfl⟩

/-- Witness of C17: a snapshot stamped 1000000000, served at 1700000000, seven hundred million
seconds later, with the provider reachable. -/
theorem past_entry_never_expires_witness :
    (_Validate "90210").2 = true
    ∧ (sampleEntry 1000000000).timestamp
        ≤ (reachableEnv 1700000000).nowCalcAge + CACHE_MAX_VALID_SECONDS
    ∧ ∃ out, Latest (reachableEnv 1700000000) (stateWith "90210" (sampleEntry 1000000000))
          "90210" = some out
      ∧ out.trace = []
      ∧ out.state.RATE_LIMITER = (stateWith "90210" (sampleEntry 1000000000)).RATE_LIMITER
      ∧ out.state.CACHE = (stateWith "90210" (sampleEntry 1000000000)).CACHE
      ∧ out.ret = _PopulateReturn (sampleEntry 1000000000) ""
          (reachableEnv 1700000000).nowPopulateReturn
      ∧ out.ret.temp = (sampleEntry 1000000000).temp
      ∧ out.ret.humidity = (sampleEntry 1000000000).humidity
      ∧ out.ret.windSpeed = (sampleEntry 1000000000).windSpeed ∧ out.ret.error = "" :=
  ⟨by decide, by decide,
    past_entry_never_expires (reachableEnv 1700000000)
      (stateWith "90210" (sampleEntry 1000000000)) "90210" (sampleEntry 1000000000)
      (by decide) (by decide) (by decide) (by decide) (by decide)⟩

/-- C18 (no normalization of the key).  Whenever `_Validate` accepts an input it returns that
string unchanged, and a call of `Latest` touches no cache key other than the string it was
given.  "1" and "00001" are both accepted and denote the same number, yet after a successful
fetch for "1" the cache holds an entry under "1" and none under "00001", and a following call
for "00001" sends its own request. -/
theorem validated_key_is_input_string :
    (∀ zip : String, (_Validate zip).2 = true → (_Validate zip).1 = zip)
    ∧ (∀ (env : Env) (st : State) (zip zip' : String) (out : LatestOut),
        Latest env st zip = some out → zip' ≠ zip → out.state.CACHE zip' = st.CACHE zip')
    ∧ _Validate "1" = ("1", true) ∧ _Validate "00001" = ("00001", true)
    ∧ parseBase10 "1" = some 1 ∧ parseBase10 "00001" = some 1
    ∧ (Latest (reachableEnv 1700000000) {} "1").map
          (fun o => (o.state.CACHE "1", o.state.CACHE "00001"))
        = some (some { temp := "289.150000", humidity := "45", windSpeed := "3.600000",
                       timestamp := 1700000000 }, none)
    ∧ ((Latest (reachableEnv 1700000000) {} "1").bind
          (fun o => Latest (reachableEnv 1700000000) o.state "00001")).map (fun o => o.trace)
        = some [Event.httpGet (pullUrl "00001" "809f761fd91b3990cdc45262b01aa174")] := by
  refine ⟨Validate_fst, ?_, by decide, by decide, by decide, by decide, by decide, by decide⟩
  intro env st zip zip' out h hne
  rcases Latest_cache_after env st zip out h with hsame | ⟨s, _, _, hupd⟩
  · rw [hsame]
  · rw [hupd]
    simp [hne]

end TempFromZip
